import Mathlib

/-!
# Verification of the docklift configuration schema (`src/docklift/config.py`)

A shallow embedding of the configuration data model and its load/save
operations.  YAML documents are modelled by the mutual inductive `Yaml`
(scalars, sequences, and string-keyed mappings, matching the JSON-compatible
value universe that `model_dump(mode="json")` produces and `yaml.safe_load`
reads back for this schema).  The filesystem is modelled explicitly, as is
the `pathlib.Path` normalization and `expanduser` behaviour that the
`ssh_key_path` validator relies on.
-/

set_option maxHeartbeats 1000000

namespace Docklift

-- YAML/JSON-style values.  `map` keys are strings, in document order.
-- Mutual inductive (rather than `List`-nested) so that all recursive
-- functions below are structural and compute by `rfl`/`decide`.
mutual

inductive Yaml where
  | null : Yaml
  | bool (b : Bool) : Yaml
  | int (n : Int) : Yaml
  | str (s : String) : Yaml
  | list (l : YList) : Yaml
  | map (m : YMap) : Yaml
deriving DecidableEq, Repr

inductive YList where
  | nil : YList
  | cons (hd : Yaml) (tl : YList) : YList
deriving DecidableEq, Repr

inductive YMap where
  | nil : YMap
  | cons (k : String) (v : Yaml) (tl : YMap) : YMap
deriving DecidableEq, Repr

end

/-- Convert an association list to a `YMap` (document order preserved). -/
def YMap.ofList : List (String × Yaml) → YMap
  | [] => .nil
  | (k, v) :: t => .cons k v (YMap.ofList t)

/-- Convert a `YMap` back to an association list. -/
def YMap.toList : YMap → List (String × Yaml)
  | .nil => []
  | .cons k v t => (k, v) :: YMap.toList t

/-- Python dict lookup (`data.get(k)`).  `safe_load` never produces duplicate
keys (it builds a `dict`), so first-match lookup coincides with dict lookup. -/
def YMap.get : YMap → String → Option Yaml
  | .nil, _ => none
  | .cons k v t, key => if k = key then some v else YMap.get t key

/-! ## `pathlib.Path` model

`Path(v)` parses a POSIX path into an anchor (`""`, `"/"`, or the special
double-slash root `"//"`) and a list of non-empty segments, dropping `"."`
segments, repeated and trailing separators.  `str(Path(v))` renders this
parsed form back, so `str(Path(v))` is the pathlib normalization of `v`. -/

/-- Anchor of a POSIX path string: `""` (relative), `"//"` (exactly two
leading slashes, kept by POSIX pathlib), or `"/"` otherwise. -/
def pathAnchor (s : String) : String :=
  match s.data with
  | '/' :: '/' :: '/' :: _ => "/"
  | '/' :: '/' :: _ => "//"
  | '/' :: _ => "/"
  | _ => ""

/-- Split a character list on `/`. -/
def splitSlash : List Char → List (List Char)
  | [] => [[]]
  | c :: cs =>
    if c = '/' then [] :: splitSlash cs
    else
      match splitSlash cs with
      | [] => [[c]]
      | h :: t => (c :: h) :: t

/-- Segments of a POSIX path: split on `/`, dropping empty and `"."` parts
(exactly what `pathlib.PurePosixPath` keeps in `.parts` besides the root). -/
def pathSegs (s : String) : List String :=
  ((splitSlash s.data).filter (fun l => l ≠ [] && l ≠ ['.'])).map String.mk

/-- Parsed form of `pathlib.Path(s)`: anchor plus segments. -/
def pathParts (s : String) : String × List String :=
  (pathAnchor s, pathSegs s)

/-- Join segments with `/`. -/
def joinSlash : List String → String
  | [] => ""
  | [p] => p
  | p :: ps => p ++ "/" ++ joinSlash ps

/-- Rendered `str(...)` of a parsed path; `Path("")`/`Path(".")` both render as `"."`. -/
def renderPath : String × List String → String
  | ("", []) => "."
  | (a, ps) => a ++ joinSlash ps

/-- Normalization `str(Path(s))`: pathlib's normalization of a path string. -/
def pathNorm (s : String) : String := renderPath (pathParts s)

/-- Process environment relevant to `Path.expanduser`: the current user's
home directory (for a leading `~`) and the home directories of named users
(for a leading `~name`). -/
structure Env where
  home : String
  userHomes : List (String × String)
deriving DecidableEq, Repr

/-- Model of `Path.expanduser`: if the path is relative and its first segment starts
with `~`, replace that segment by the matching home directory (itself parsed
as a path); raise `RuntimeError` when the home directory cannot be
determined.  All other paths are returned unchanged. -/
def expanduserParts (env : Env) (ap : String × List String) : Except String (String × List String) :=
  match ap.2 with
  | [] => .ok ap
  | p :: rest =>
    if ap.1 = "" then
      if p = "~" then .ok (pathAnchor env.home, pathSegs env.home ++ rest)
      else if p.data.head? = some '~' then
        match env.userHomes.lookup (String.mk (p.data.drop 1)) with
        | some h => .ok (pathAnchor h, pathSegs h ++ rest)
        | none => .error "Could not determine home directory"
      else .ok ap
    else .ok ap

/-! ## Loaded documents

`yaml.safe_load` can return a mapping whose keys are arbitrary scalars,
not just strings.  Non-string keys matter at the top level: `cls(**data)`
raises `TypeError("keywords must be strings")` when `data` has one.  A
top-level mapping therefore carries `YKey`-keyed entries; non-string
scalar keys are modeled by their canonical case, integers (booleans,
floats and null keys behave identically at the `**` boundary).  Nested
mappings of this schema's documents are modeled string-keyed (`YMap`). -/

/-- A YAML mapping key at the top level of a document: a string, or a
non-string scalar (modeled by its canonical case, an integer). -/
inductive YKey where
  | str (s : String) : YKey
  | int (n : Int) : YKey
deriving DecidableEq, Repr

/-- Whether a top-level mapping key is a string (acceptable to `**`). -/
def YKey.isStr : YKey → Bool
  | .str _ => true
  | .int _ => false

/-- The top-level value of a parsed document, as `yaml.safe_load` returns
it: a scalar, a sequence, or a mapping with scalar keys. -/
inductive TopDoc where
  | null : TopDoc
  | bool (b : Bool) : TopDoc
  | int (n : Int) : TopDoc
  | str (s : String) : TopDoc
  | list (l : YList) : TopDoc
  | mapping (m : List (YKey × Yaml)) : TopDoc
deriving DecidableEq, Repr

/-- View a YAML value as a loaded top-level document (what `safe_load`
returns for the text `yaml.dump` wrote for that value). -/
def toTopDoc : Yaml → TopDoc
  | .null => .null
  | .bool b => .bool b
  | .int n => .int n
  | .str s => .str s
  | .list l => .list l
  | .map m => .mapping (m.toList.map (fun p => (YKey.str p.1, p.2)))

/-- The string-keyed entries of a top-level mapping (the keyword
arguments `**data` passes; total, but `from_yaml` only uses it after
checking that every key is a string). -/
def strPairs : List (YKey × Yaml) → List (String × Yaml)
  | [] => []
  | (.str s, v) :: t => (s, v) :: strPairs t
  | (.int _, _) :: t => strPairs t

/-! ## Filesystem model

Paths are stored in their pathlib-normalized string form.  A file's content
is the result of `yaml.safe_load` on its text: `none` models text that
raises `yaml.YAMLError`, `some t` models text parsing to the top-level
value `t` (an empty document parses to `TopDoc.null`).  `flow` records
whether the document was written in flow style
(`yaml.dump(default_flow_style=False)` writes block style,
i.e. `flow = false`). -/

/-- A file on disk, abstracted to its YAML-level content and style. -/
structure Document where
  content : Option TopDoc
  flow : Bool
deriving DecidableEq, Repr

/-- Filesystem state: files (by normalized path) and directories. -/
structure FS where
  files : List (String × Document)
  dirs : List String
deriving DecidableEq, Repr

/-- Check of `Path.exists()` on a normalized path string: a file or directory. -/
def FS.exists (fs : FS) (p : String) : Bool :=
  (fs.files.lookup p).isSome || fs.dirs.contains p

/-! ## Error model

The Python exception classes that the operations of `config.py` can raise. -/

inductive PyErr where
  | fileNotFoundError (msg : String) : PyErr
  | validationError (msgs : List String) : PyErr
  | yamlError : PyErr
  | typeError (msg : String) : PyErr
  | runtimeError (msg : String) : PyErr
  | fileExistsError (msg : String) : PyErr
  | isADirectoryError (msg : String) : PyErr
deriving DecidableEq, Repr

/-! ## Pydantic validation model

Pydantic v2 validates fields in declaration order and collects the
`ValidationError` messages of all failing fields; a non-`ValueError`
exception raised inside a field validator (here: the `RuntimeError` that
`Path.expanduser` raises when a home directory cannot be resolved)
propagates immediately instead of being collected. -/

/-- Error state of a partially validated model. -/
inductive VErr where
  | msgs (l : List String) : VErr
  | exn (e : PyErr) : VErr
deriving DecidableEq, Repr

instance {ε α : Type} [DecidableEq ε] [DecidableEq α] : DecidableEq (Except ε α) := by
  intro a b
  cases a <;> cases b
  case error.error e1 e2 => exact decidable_of_iff (e1 = e2) (by simp)
  case ok.ok a1 a2 => exact decidable_of_iff (a1 = a2) (by simp)
  all_goals exact isFalse (by simp)

/-- Result of validating a (group of) field(s). -/
abbrev Val (α : Type) : Type := Except VErr α

/-- Applicative combination: collect messages from both sides, in field
order; a raised exception wins over collected messages. -/
def vApp {α β : Type} : Val (α → β) → Val α → Val β
  | .ok f, .ok a => .ok (f a)
  | .ok _, .error e => .error e
  | .error (.exn e), _ => .error (.exn e)
  | .error (.msgs l), .ok _ => .error (.msgs l)
  | .error (.msgs l), .error (.msgs l2) => .error (.msgs (l ++ l2))
  | .error (.msgs _), .error (.exn e) => .error (.exn e)

/-- Surface the final result the way pydantic does: collected messages
become one `ValidationError`; a raised exception is re-raised as itself. -/
def Val.toPy {α : Type} : Val α → Except PyErr α
  | .ok a => .ok a
  | .error (.msgs l) => .error (.validationError l)
  | .error (.exn e) => .error e

/-- Prefix the location of nested-model error messages (pydantic reports
`vps.ssh_key_path: ...` for an error inside the `vps` sub-model). -/
def vNestErr {α : Type} (p : String) : Val α → Val α
  | .ok a => .ok a
  | .error (.msgs l) => .error (.msgs (l.map (fun m => p ++ "." ++ m)))
  | .error (.exn e) => .error (.exn e)

/-- Required `str` field. -/
def vReqStr (name : String) : Option Yaml → Val String
  | none => .error (.msgs [name ++ ": Field required"])
  | some (.str s) => .ok s
  | some _ => .error (.msgs [name ++ ": Input should be a valid string"])

/-- A `str` field with a default. -/
def vDefStr (name dflt : String) : Option Yaml → Val String
  | none => .ok dflt
  | some (.str s) => .ok s
  | some _ => .error (.msgs [name ++ ": Input should be a valid string"])

/-- A `str | None` field (default `None`). -/
def vOptStr (name : String) : Option Yaml → Val (Option String)
  | none => .ok none
  | some .null => .ok none
  | some (.str s) => .ok (some s)
  | some _ => .error (.msgs [name ++ ": Input should be a valid string"])

/-- An `int` field with a default (lax mode also accepts integer strings). -/
def vDefInt (name : String) (dflt : Int) : Option Yaml → Val Int
  | none => .ok dflt
  | some (.int n) => .ok n
  | some (.str s) =>
    match s.toInt? with
    | some n => .ok n
    | none => .error (.msgs [name ++ ": Input should be a valid integer"])
  | some _ => .error (.msgs [name ++ ": Input should be a valid integer"])

/-- An `int | None` field (default `None`). -/
def vOptInt (name : String) : Option Yaml → Val (Option Int)
  | none => .ok none
  | some .null => .ok none
  | some (.int n) => .ok (some n)
  | some (.str s) =>
    match s.toInt? with
    | some n => .ok (some n)
    | none => .error (.msgs [name ++ ": Input should be a valid integer"])
  | some _ => .error (.msgs [name ++ ": Input should be a valid integer"])

/-- Entries of a `dict[str, str]` field. -/
def vStrEntries (name : String) : YMap → Val (List (String × String))
  | .nil => .ok []
  | .cons k v t =>
    let hd : Val String :=
      match v with
      | .str s => .ok s
      | _ => .error (.msgs [name ++ "." ++ k ++ ": Input should be a valid string"])
    vApp (vApp (.ok (fun h tl => (k, h) :: tl)) hd) (vStrEntries name t)

/-- A `dict[str, str]` field (default `{}`). -/
def vStrDict (name : String) : Option Yaml → Val (List (String × String))
  | none => .ok []
  | some (.map m) => vStrEntries name m
  | some _ => .error (.msgs [name ++ ": Input should be a valid dictionary"])

/-- Items of a `list[str]` field. -/
def vStrItems (name : String) : YList → Val (List String)
  | .nil => .ok []
  | .cons v t =>
    let hd : Val String :=
      match v with
      | .str s => .ok s
      | _ => .error (.msgs [name ++ ": Input should be a valid string"])
    vApp (vApp (.ok List.cons) hd) (vStrItems name t)

/-- A `list[str]` field (default `[]`). -/
def vStrList (name : String) : Option Yaml → Val (List String)
  | none => .ok []
  | some (.list l) => vStrItems name l
  | some _ => .error (.msgs [name ++ ": Input should be a valid list"])

-- Python runtime values, for the `Any`-typed `extra` field: the JSON/YAML
-- universe plus tuples.  Tuples are the canonical values that
-- `model_dump(mode="json")` coerces (to lists) instead of preserving;
-- sets, dates and bytes behave analogously (coerced to lists/strings) and
-- are represented here by the tuple case.  Dict keys are strings;
-- non-string dict keys, which json-mode coercion stringifies (and can
-- therefore collide), are outside the modeled universe.
mutual

inductive Py where
  | null : Py
  | bool (b : Bool) : Py
  | int (n : Int) : Py
  | str (s : String) : Py
  | list (l : PyList) : Py
  | tuple (l : PyList) : Py
  | dict (m : PyDict) : Py
deriving DecidableEq, Repr

inductive PyList where
  | nil : PyList
  | cons (hd : Py) (tl : PyList) : PyList
deriving DecidableEq, Repr

inductive PyDict where
  | nil : PyDict
  | cons (k : String) (v : Py) (tl : PyDict) : PyDict
deriving DecidableEq, Repr

end

/-- Association-list view of a `PyDict`. -/
def PyDict.toList : PyDict → List (String × Py)
  | .nil => []
  | .cons k v t => (k, v) :: PyDict.toList t

/-- Build a `PyDict` from an association list. -/
def PyDict.ofList : List (String × Py) → PyDict
  | [] => .nil
  | (k, v) :: t => .cons k v (PyDict.ofList t)

-- `model_dump(mode="json")` on an `Any` value: tuples become lists
-- (like sets; dates/bytes become strings), dicts keep their string keys.
mutual

def pyToJson : Py → Yaml
  | .null => .null
  | .bool b => .bool b
  | .int n => .int n
  | .str s => .str s
  | .list l => .list (pyToJsonList l)
  | .tuple l => .list (pyToJsonList l)
  | .dict m => .map (pyToJsonDict m)

def pyToJsonList : PyList → YList
  | .nil => .nil
  | .cons h t => .cons (pyToJson h) (pyToJsonList t)

def pyToJsonDict : PyDict → YMap
  | .nil => .nil
  | .cons k v t => .cons k (pyToJson v) (pyToJsonDict t)

end

-- The Python value `yaml.safe_load` produces for a (nested) YAML value.
mutual

def yamlToPy : Yaml → Py
  | .null => .null
  | .bool b => .bool b
  | .int n => .int n
  | .str s => .str s
  | .list l => .list (yamlToPyList l)
  | .map m => .dict (ymapToPyDict m)

def yamlToPyList : YList → PyList
  | .nil => .nil
  | .cons h t => .cons (yamlToPy h) (yamlToPyList t)

def ymapToPyDict : YMap → PyDict
  | .nil => .nil
  | .cons k v t => .cons k (yamlToPy v) (ymapToPyDict t)

end

-- Whether an `Any` value is already JSON-representable, i.e. a fixed
-- point (up to dict order) of `model_dump(mode="json")`: no tuples
-- anywhere (nor, in the full language, sets/dates/bytes).
mutual

def jsonSafe : Py → Bool
  | .null => true
  | .bool _ => true
  | .int _ => true
  | .str _ => true
  | .list l => jsonSafeList l
  | .tuple _ => false
  | .dict m => jsonSafeDict m

def jsonSafeList : PyList → Bool
  | .nil => true
  | .cons h t => jsonSafe h && jsonSafeList t

def jsonSafeDict : PyDict → Bool
  | .nil => true
  | .cons _ v t => jsonSafe v && jsonSafeDict t

end

/-- A `dict[str, Any]` field (default `{}`): any values accepted as-is;
a loaded YAML value becomes the corresponding Python value. -/
def vAnyDict (name : String) : Option Yaml → Val (List (String × Py))
  | none => .ok []
  | some (.map m) => .ok (m.toList.map (fun p => (p.1, yamlToPy p.2)))
  | some _ => .error (.msgs [name ++ ": Input should be a valid dictionary"])

/-! ## The configuration models (`config.py`) -/

/-- Model `VPSConfig`: VPS connection configuration. -/
structure VPSConfig where
  host : String
  user : String
  ssh_key_path : String
  port : Int
  email : Option String
deriving DecidableEq, Repr

/-- Validator `VPSConfig.validate_ssh_key_path`: `path = Path(v).expanduser()`;
raise `ValueError(f"SSH key not found at: {v}")` unless `path.exists()`;
return `str(path)`.  The `.exn` branch models the `RuntimeError` that
`expanduser` itself can raise. -/
def validate_ssh_key_path (env : Env) (fs : FS) (v : String) : Val String :=
  match expanduserParts env (pathParts v) with
  | .error e => .error (.exn (.runtimeError e))
  | .ok ap =>
    if fs.exists (renderPath ap) then .ok (renderPath ap)
    else .error (.msgs ["ssh_key_path: Value error, SSH key not found at: " ++ v])

/-- Field validation of `VPSConfig` from keyword arguments.  The field
validator for `ssh_key_path` runs after its type validation. -/
def VPSConfig.validateFields (env : Env) (fs : FS) (kw : YMap) : Val VPSConfig :=
  let sshR : Val String :=
    match vReqStr "ssh_key_path" (kw.get "ssh_key_path") with
    | .ok v => validate_ssh_key_path env fs v
    | .error e => .error e
  vApp (vApp (vApp (vApp (vApp (.ok VPSConfig.mk)
    (vReqStr "host" (kw.get "host")))
    (vReqStr "user" (kw.get "user")))
    sshR)
    (vDefInt "port" 22 (kw.get "port")))
    (vOptStr "email" (kw.get "email"))

/-- Construction `VPSConfig(host=h, user=u, ssh_key_path=k)` with optional fields
omitted (the construction used throughout the spec's scenarios). -/
def VPSConfig.construct (env : Env) (fs : FS) (h u k : String) : Except PyErr VPSConfig :=
  (VPSConfig.validateFields env fs
    (.cons "host" (.str h) (.cons "user" (.str u)
      (.cons "ssh_key_path" (.str k) .nil)))).toPy

/-- Model `ServiceConfig`: docker compose service configuration. -/
structure ServiceConfig where
  image : Option String
  environment : List (String × String)
  volumes : List String
  ports : List String
  depends_on : List String
  extra : List (String × Py)
deriving DecidableEq, Repr

/-- Field validation of `ServiceConfig` from keyword arguments. -/
def ServiceConfig.validateFields (kw : YMap) : Val ServiceConfig :=
  vApp (vApp (vApp (vApp (vApp (vApp (.ok ServiceConfig.mk)
    (vOptStr "image" (kw.get "image")))
    (vStrDict "environment" (kw.get "environment")))
    (vStrList "volumes" (kw.get "volumes")))
    (vStrList "ports" (kw.get "ports")))
    (vStrList "depends_on" (kw.get "depends_on")))
    (vAnyDict "extra" (kw.get "extra"))

/-- Construction `ServiceConfig(**kw)`. -/
def ServiceConfig.construct (kw : YMap) : Except PyErr ServiceConfig :=
  (ServiceConfig.validateFields kw).toPy

/-- Entries of the `dict[str, ServiceConfig]` field `dependencies`. -/
def vSvcEntries : YMap → Val (List (String × ServiceConfig))
  | .nil => .ok []
  | .cons k v t =>
    let hd : Val ServiceConfig :=
      match v with
      | .map m => vNestErr ("dependencies." ++ k) (ServiceConfig.validateFields m)
      | _ => .error (.msgs ["dependencies." ++ k ++
          ": Input should be a valid dictionary or instance of ServiceConfig"])
    vApp (vApp (.ok (fun h tl => (k, h) :: tl)) hd) (vSvcEntries t)

/-- A `dict[str, ServiceConfig]` field (default `{}`). -/
def vSvcDict : Option Yaml → Val (List (String × ServiceConfig))
  | none => .ok []
  | some (.map m) => vSvcEntries m
  | some _ => .error (.msgs ["dependencies: Input should be a valid dictionary"])

/-- Model `ApplicationConfig`: application deployment configuration. -/
structure ApplicationConfig where
  name : String
  domain : String
  dockerfile : String
  context : String
  port : Option Int
  environment : List (String × String)
  dependencies : List (String × ServiceConfig)
deriving DecidableEq, Repr

/-- Field validation of `ApplicationConfig` from keyword arguments. -/
def ApplicationConfig.validateFields (kw : YMap) : Val ApplicationConfig :=
  vApp (vApp (vApp (vApp (vApp (vApp (vApp (.ok ApplicationConfig.mk)
    (vReqStr "name" (kw.get "name")))
    (vReqStr "domain" (kw.get "domain")))
    (vDefStr "dockerfile" "./Dockerfile" (kw.get "dockerfile")))
    (vDefStr "context" "." (kw.get "context")))
    (vOptInt "port" (kw.get "port")))
    (vStrDict "environment" (kw.get "environment")))
    (vSvcDict (kw.get "dependencies"))

/-- Construction `ApplicationConfig(name=n, domain=d)` with optional fields omitted. -/
def ApplicationConfig.construct (n d : String) : Except PyErr ApplicationConfig :=
  (ApplicationConfig.validateFields
    (.cons "name" (.str n) (.cons "domain" (.str d) .nil))).toPy

/-- Model `DockLiftConfig`: main docklift configuration. -/
structure DockLiftConfig where
  vps : VPSConfig
  application : ApplicationConfig
deriving DecidableEq, Repr

/-- A required nested-model field: the value must be a mapping, which is
validated by the sub-model; its errors are reported under the field name. -/
def vNestedVps (env : Env) (fs : FS) : Option Yaml → Val VPSConfig
  | none => .error (.msgs ["vps: Field required"])
  | some (.map m) => vNestErr "vps" (VPSConfig.validateFields env fs m)
  | some _ => .error (.msgs ["vps: Input should be a valid dictionary or instance of VPSConfig"])

/-- The required nested `application` field. -/
def vNestedApp : Option Yaml → Val ApplicationConfig
  | none => .error (.msgs ["application: Field required"])
  | some (.map m) => vNestErr "application" (ApplicationConfig.validateFields m)
  | some _ => .error (.msgs
      ["application: Input should be a valid dictionary or instance of ApplicationConfig"])

/-- Field validation of `DockLiftConfig` from keyword arguments
(`cls(**data)` for a mapping `data`). -/
def DockLiftConfig.validateFields (env : Env) (fs : FS) (kw : YMap) : Val DockLiftConfig :=
  vApp (vApp (.ok DockLiftConfig.mk)
    (vNestedVps env fs (kw.get "vps")))
    (vNestedApp (kw.get "application"))

/-- Loader `DockLiftConfig.from_yaml`: check `Path(path).exists()` first and raise
`FileNotFoundError` otherwise; then `yaml.safe_load` the file (a parse
failure is a `yaml.YAMLError`); then `cls(**data)`.  The `**` unpacking —
performed by Python before any pydantic validation runs — raises a
`TypeError` when `data` is not a mapping, and a
`TypeError("keywords must be strings")` when it is a mapping with a
non-string key; otherwise the string-keyed entries become the keyword
arguments. -/
def DockLiftConfig.from_yaml (env : Env) (fs : FS) (path : String) : Except PyErr DockLiftConfig :=
  let p := pathNorm path
  if fs.exists p then
    match fs.files.lookup p with
    | none => .error (.isADirectoryError path)
    | some d =>
      match d.content with
      | none => .error .yamlError
      | some (.mapping m) =>
        if m.all (fun p => p.1.isStr) then
          (DockLiftConfig.validateFields env fs (YMap.ofList (strPairs m))).toPy
        else .error (.typeError "keywords must be strings")
      | some _ => .error (.typeError "argument after ** must be a mapping")
  else .error (.fileNotFoundError ("Configuration file not found: " ++ path))

/-! ## `model_dump(mode="json")` -/

/-- JSON dump of a `str | None` value. -/
def optStrY : Option String → Yaml
  | none => .null
  | some s => .str s

/-- JSON dump of an `int | None` value. -/
def optIntY : Option Int → Yaml
  | none => .null
  | some n => .int n

/-- JSON dump of a `dict[str, str]` value. -/
def strDictY (l : List (String × String)) : YMap :=
  YMap.ofList (l.map (fun p => (p.1, .str p.2)))

/-- JSON dump of a `list[str]` value. -/
def strListY : List String → YList
  | [] => .nil
  | s :: t => .cons (.str s) (strListY t)

/-- Dump `VPSConfig.model_dump` in JSON mode, fields in declaration order. -/
def VPSConfig.dump (c : VPSConfig) : Yaml :=
  .map (.cons "host" (.str c.host) (.cons "user" (.str c.user)
    (.cons "ssh_key_path" (.str c.ssh_key_path) (.cons "port" (.int c.port)
      (.cons "email" (optStrY c.email) .nil)))))

/-- Dump `ServiceConfig.model_dump` in JSON mode. -/
def ServiceConfig.dump (s : ServiceConfig) : Yaml :=
  .map (.cons "image" (optStrY s.image)
    (.cons "environment" (.map (strDictY s.environment))
      (.cons "volumes" (.list (strListY s.volumes))
        (.cons "ports" (.list (strListY s.ports))
          (.cons "depends_on" (.list (strListY s.depends_on))
            (.cons "extra" (.map (YMap.ofList (s.extra.map (fun p => (p.1, pyToJson p.2))))) .nil))))))

/-- JSON dump of the `dependencies` mapping. -/
def svcDictY (l : List (String × ServiceConfig)) : YMap :=
  YMap.ofList (l.map (fun p => (p.1, p.2.dump)))

/-- Dump `ApplicationConfig.model_dump` in JSON mode. -/
def ApplicationConfig.dump (a : ApplicationConfig) : Yaml :=
  .map (.cons "name" (.str a.name) (.cons "domain" (.str a.domain)
    (.cons "dockerfile" (.str a.dockerfile) (.cons "context" (.str a.context)
      (.cons "port" (optIntY a.port)
        (.cons "environment" (.map (strDictY a.environment))
          (.cons "dependencies" (.map (svcDictY a.dependencies)) .nil)))))))

/-- Dump `DockLiftConfig.model_dump` in JSON mode. -/
def DockLiftConfig.dump (c : DockLiftConfig) : Yaml :=
  .map (.cons "vps" c.vps.dump (.cons "application" c.application.dump .nil))

/-! ## Key sorting (`yaml.dump` with its default `sort_keys=True`) -/

/-- Python string `<=`: lexicographic comparison by Unicode code point. -/
def charsLe : List Char → List Char → Bool
  | [], _ => true
  | _ :: _, [] => false
  | a :: as, b :: bs =>
    if a < b then true
    else if b < a then false
    else charsLe as bs

/-- Holds (as `true`) iff `a <= b` as Python strings. -/
def strLe (a b : String) : Bool := charsLe a.data b.data

/-- Insert one entry into a key-sorted `YMap`. -/
def insYMap (k : String) (v : Yaml) : YMap → YMap
  | .nil => .cons k v .nil
  | .cons k2 v2 t =>
    if strLe k k2 then .cons k v (.cons k2 v2 t) else .cons k2 v2 (insYMap k v t)

/-- Sort a `YMap` by key (insertion sort; Python's `sorted` is stable and
dict keys are distinct, so any stable or unstable sort agrees). -/
def sortYMap : YMap → YMap
  | .nil => .nil
  | .cons k v t => insYMap k v (sortYMap t)

-- Recursive key-sorting of a document, as `yaml.dump(..., sort_keys=True)`
-- emits it at every mapping level.
mutual

def canonYaml : Yaml → Yaml
  | .null => .null
  | .bool b => .bool b
  | .int n => .int n
  | .str s => .str s
  | .list l => .list (canonYList l)
  | .map m => .map (sortYMap (canonYMapVals m))

def canonYList : YList → YList
  | .nil => .nil
  | .cons h t => .cons (canonYaml h) (canonYList t)

def canonYMapVals : YMap → YMap
  | .nil => .nil
  | .cons k v t => .cons k (canonYaml v) (canonYMapVals t)

end

/-- Insert one entry into a key-sorted association list. -/
def insKey {α : Type} (p : String × α) : List (String × α) → List (String × α)
  | [] => [p]
  | q :: qs => if strLe p.1 q.1 then p :: q :: qs else q :: insKey p qs

/-- Sort an association list by key. -/
def sortKeys {α : Type} : List (String × α) → List (String × α)
  | [] => []
  | p :: ps => insKey p (sortKeys ps)

/-! ## Canonical forms and Python `==`

Pydantic model `==` compares fields; Python `dict` `==` ignores insertion
order.  On duplicate-free dicts (the only dicts Python can represent), two
values are `==` exactly when their recursively key-sorted canonical forms
are equal, so we model `==` as equality of canonical forms. -/

/-- What one `extra` value becomes after the save-load round trip:
`safe_load` of the key-sorted `yaml.dump` of its
`model_dump(mode="json")` image.  The identity (up to dict order) exactly
on `jsonSafe` values; a tuple, for example, comes back as a list. -/
def pyCanonJson (v : Py) : Py := yamlToPy (canonYaml (pyToJson v))

/-- Sort a Python dict's entries by key. -/
def sortPyDict (m : PyDict) : PyDict := PyDict.ofList (sortKeys m.toList)

-- Recursive key-sorting of a Python value: the canonical form modulo
-- dict insertion order, which Python dict `==` ignores.
mutual

def canonPy : Py → Py
  | .null => .null
  | .bool b => .bool b
  | .int n => .int n
  | .str s => .str s
  | .list l => .list (canonPyList l)
  | .tuple l => .tuple (canonPyList l)
  | .dict m => .dict (sortPyDict (canonPyVals m))

def canonPyList : PyList → PyList
  | .nil => .nil
  | .cons h t => .cons (canonPy h) (canonPyList t)

def canonPyVals : PyDict → PyDict
  | .nil => .nil
  | .cons k v t => .cons k (canonPy v) (canonPyVals t)

end

/-- Canonical form of a `ServiceConfig` after a save-load round trip:
dict fields key-sorted, `extra` values as reloaded. -/
def canonService (s : ServiceConfig) : ServiceConfig :=
  ⟨s.image, sortKeys s.environment, s.volumes, s.ports, s.depends_on,
    sortKeys (s.extra.map (fun p => (p.1, pyCanonJson p.2)))⟩

/-- Canonical form of an `ApplicationConfig`. -/
def canonApp (a : ApplicationConfig) : ApplicationConfig :=
  ⟨a.name, a.domain, a.dockerfile, a.context, a.port, sortKeys a.environment,
    sortKeys (a.dependencies.map (fun p => (p.1, canonService p.2)))⟩

/-- Canonical form of a `DockLiftConfig` (the `vps` part has no dicts). -/
def canonConfig (c : DockLiftConfig) : DockLiftConfig :=
  ⟨c.vps, canonApp c.application⟩

/-- Canonical form of a `ServiceConfig` for Python `==`: dict fields and
nested `extra` dicts key-sorted, all values kept. -/
def eqCanonService (s : ServiceConfig) : ServiceConfig :=
  ⟨s.image, sortKeys s.environment, s.volumes, s.ports, s.depends_on,
    sortKeys (s.extra.map (fun p => (p.1, canonPy p.2)))⟩

/-- Canonical form of an `ApplicationConfig` for Python `==`. -/
def eqCanonApp (a : ApplicationConfig) : ApplicationConfig :=
  ⟨a.name, a.domain, a.dockerfile, a.context, a.port, sortKeys a.environment,
    sortKeys (a.dependencies.map (fun p => (p.1, eqCanonService p.2)))⟩

/-- Canonical form of a `DockLiftConfig` for Python `==`. -/
def eqCanonConfig (c : DockLiftConfig) : DockLiftConfig :=
  ⟨c.vps, eqCanonApp c.application⟩

/-- Python `==` on `DockLiftConfig` values. -/
def pyEqConfig (a b : DockLiftConfig) : Bool :=
  eqCanonConfig a == eqCanonConfig b

/-- All `extra` values of a service are JSON-representable. -/
def svcJsonSafe (s : ServiceConfig) : Bool :=
  s.extra.all (fun p => jsonSafe p.2)

/-- All `extra` values of every dependent service are JSON-representable. -/
def configJsonSafe (c : DockLiftConfig) : Bool :=
  c.application.dependencies.all (fun p => svcJsonSafe p.2)

/-! ## `DockLiftConfig.to_yaml` -/

/-- The rendered proper prefixes of a segment list under an anchor: the
chain of directories `Path(path).parent.mkdir(parents=True, exist_ok=True)`
walks through. -/
def prefixesFrom (a : String) (acc : List String) : List String → List String
  | [] => []
  | p :: ps => renderPath (a, acc ++ [p]) :: prefixesFrom a (acc ++ [p]) ps

/-- Writer `to_yaml`: `Path(path).parent.mkdir(parents=True, exist_ok=True)` then
`open(path, "w")` and `yaml.dump(self.model_dump(mode="json"), f,
default_flow_style=False)`.  Errors cover an element of the parent chain
existing as a file (mkdir fails) and the target being a directory (open
fails); otherwise missing parent directories are created and the file is
(over)written with the key-sorted document in block style. -/
def DockLiftConfig.to_yaml (c : DockLiftConfig) (path : String) (fs : FS) : Except PyErr FS :=
  let ap := pathParts path
  let p := renderPath ap
  let parents := prefixesFrom ap.1 [] ap.2.dropLast
  if parents.any (fun d => (fs.files.lookup d).isSome) then
    .error (.fileExistsError path)
  else if fs.dirs.contains p then
    .error (.isADirectoryError path)
  else
    .ok ⟨(p, ⟨some (toTopDoc (canonYaml c.dump)), false⟩) :: fs.files.filter (fun q => !(q.1 == p)),
         fs.dirs ++ parents.filter (fun d => !(fs.dirs.contains d))⟩

/-- Adjacent-chain key-sortedness of an association list. -/
def sortedKeysList {α : Type} : List (String × α) → Bool
  | [] => true
  | [_] => true
  | p :: q :: t => strLe p.1 q.1 && sortedKeysList (q :: t)

/-! ## Key-sortedness of emitted documents -/

def sortedYMapKeys : YMap → Bool
  | .nil => true
  | .cons _ _ .nil => true
  | .cons k _ (.cons k2 v2 t) => strLe k k2 && sortedYMapKeys (.cons k2 v2 t)

-- Every mapping in the document, at every level, has key-sorted entries.
mutual

def sortedDoc : Yaml → Bool
  | .null => true
  | .bool _ => true
  | .int _ => true
  | .str _ => true
  | .list l => sortedDocList l
  | .map m => sortedYMapKeys m && sortedDocMap m

def sortedDocList : YList → Bool
  | .nil => true
  | .cons h t => sortedDoc h && sortedDocList t

def sortedDocMap : YMap → Bool
  | .nil => true
  | .cons _ v t => sortedDoc v && sortedDocMap t

end

/-! ## Error classification

The only exception a field validator of this schema can raise besides
`ValueError` is the `RuntimeError` from `Path.expanduser`, so every failing
construction surfaces as a `ValidationError` or that `RuntimeError`. -/

/-- The error (if any) is collected messages or a `RuntimeError`. -/
def plainVal {α : Type} (x : Val α) : Prop :=
  ∀ e, x = .error (.exn e) → ∃ m, e = .runtimeError m

/-! ## Construction equations and helper predicates -/

/-- A path string is absolute iff it begins with `/`. -/
def isAbsStr (s : String) : Bool :=
  match s.data with
  | '/' :: _ => true
  | _ => false

/-- The parsed path has no home-directory shorthand to expand. -/
def noTilde (ap : String × List String) : Bool :=
  match ap.2 with
  | [] => true
  | p :: _ => if ap.1 = "" then p.data.head? != some '~' else true

/-- Whether the result of a field validation is a success. -/
def valOk {α : Type} : Val α → Bool
  | .ok _ => true
  | .error _ => false

/-- Whether a present keyword argument of `ServiceConfig` has an acceptable
shape for its field (unknown keys are ignored by pydantic). -/
def svcFieldOk (k : String) (v : Yaml) : Bool :=
  if k = "image" then valOk (vOptStr "image" (some v))
  else if k = "environment" then valOk (vStrDict "environment" (some v))
  else if k = "volumes" then valOk (vStrList "volumes" (some v))
  else if k = "ports" then valOk (vStrList "ports" (some v))
  else if k = "depends_on" then valOk (vStrList "depends_on" (some v))
  else if k = "extra" then valOk (vAnyDict "extra" (some v))
  else true

/-! ## Concrete fixtures -/

/-- Classification used by the spec's error taxonomy: `SerializationError`
(YAML parse failure) or `ValidationError`. -/
def isParseOrValidationErr : PyErr → Bool
  | .yamlError => true
  | .validationError _ => true
  | _ => false

def env0 : Env := ⟨"/root", []⟩

def sshKey0 : String := "/root/.ssh/id_rsa"

def doc0 : Document := ⟨some .null, false⟩

def fs0 : FS := ⟨[(sshKey0, doc0)], []⟩

def vps0 : VPSConfig := ⟨"1.2.3.4", "deploy", sshKey0, 22, none⟩

def svc0 : ServiceConfig := ⟨some "postgres:15", [("POSTGRES_PASSWORD", "x")], [], [], [], []⟩

def app0 : ApplicationConfig :=
  ⟨"blog", "blog.example.com", "./Dockerfile", ".", none, [("B", "2"), ("A", "1")], [("db", svc0)]⟩

def cfg0 : DockLiftConfig := ⟨vps0, app0⟩

def fs1after : FS :=
  ⟨[("out/config.yml", ⟨some (toTopDoc (canonYaml cfg0.dump)), false⟩), (sshKey0, doc0)], ["out"]⟩

def fs8after : FS :=
  ⟨[("out/dir/cfg.yml", ⟨some (toTopDoc (canonYaml cfg0.dump)), false⟩), (sshKey0, doc0)],
   ["out", "out/dir"]⟩

def c9a : DockLiftConfig :=
  ⟨vps0, ⟨"blog", "blog.example.com", "./Dockerfile", ".", none, [("B", "2"), ("A", "1")], []⟩⟩

def c9b : DockLiftConfig :=
  ⟨vps0, ⟨"blog", "blog.example.com", "./Dockerfile", ".", none, [("A", "1"), ("B", "2")], []⟩⟩

def fs9a : FS := ⟨[("a.yml", ⟨some (toTopDoc (canonYaml c9a.dump)), false⟩)], []⟩

def fs9b : FS := ⟨[("b.yml", ⟨some (toTopDoc (canonYaml c9b.dump)), false⟩)], []⟩

def svcT : ServiceConfig :=
  ⟨some "postgres:15", [], [], [], [],
    [("t", Py.tuple (.cons (.int 1) (.cons (.int 2) .nil)))]⟩

def cfgT : DockLiftConfig :=
  ⟨vps0, ⟨"blog", "blog.example.com", "./Dockerfile", ".", none, [], [("db", svcT)]⟩⟩

def svcT' : ServiceConfig :=
  ⟨some "postgres:15", [], [], [], [],
    [("t", Py.list (.cons (.int 1) (.cons (.int 2) .nil)))]⟩

def cfgT' : DockLiftConfig :=
  ⟨vps0, ⟨"blog", "blog.example.com", "./Dockerfile", ".", none, [], [("db", svcT')]⟩⟩

def fsTafter : FS :=
  ⟨[("out/t.yml", ⟨some (toTopDoc (canonYaml cfgT.dump)), false⟩), (sshKey0, doc0)], ["out"]⟩

theorem YMap.toList_ofList (l : List (String × Yaml)) : (YMap.ofList l).toList = l := by
  induction l with
  | nil => rfl
  | cons h t ih => cases h; simp [YMap.ofList, YMap.toList, ih]

/-! ## Sorting lemmas -/

theorem charsLe_total (a b : List Char) : charsLe a b = true ∨ charsLe b a = true := by
  induction a generalizing b with
  | nil => left; rfl
  | cons x xs ih =>
    cases b with
    | nil => right; rfl
    | cons y ys =>
      by_cases hxy : x < y
      · left; simp [charsLe, hxy]
      · by_cases hyx : y < x
        · right; simp [charsLe, hyx, hxy]
        · cases ih ys with
          | inl h => left; simp [charsLe, hxy, hyx, h]
          | inr h => right; simp [charsLe, hxy, hyx, h]

theorem strLe_total (a b : String) : strLe a b = true ∨ strLe b a = true :=
  charsLe_total a.data b.data

theorem insKey_sorted {α : Type} (p : String × α) (l : List (String × α))
    (h : sortedKeysList l = true) : sortedKeysList (insKey p l) = true := by
  induction l with
  | nil => rfl
  | cons q t ih =>
    by_cases hpq : strLe p.1 q.1 = true
    · simp [insKey, hpq, sortedKeysList, h]
    · have hqp : strLe q.1 p.1 = true := (strLe_total p.1 q.1).resolve_left hpq
      simp only [insKey, hpq, if_false]
      cases t with
      | nil => simp [sortedKeysList, insKey, hqp]
      | cons r s =>
        have ht : sortedKeysList (r :: s) = true := by
          simp [sortedKeysList] at h; exact h.2
        have hqr : strLe q.1 r.1 = true := by
          simp [sortedKeysList] at h; exact h.1
        have := ih ht
        by_cases hpr : strLe p.1 r.1 = true
        · simp [insKey, hpr, sortedKeysList, hqp, ht]
        · simp [insKey, hpr] at this
          simp [insKey, hpr, sortedKeysList, hqr, this]

theorem sortKeys_sorted {α : Type} (l : List (String × α)) :
    sortedKeysList (sortKeys l) = true := by
  induction l with
  | nil => rfl
  | cons p t ih => exact insKey_sorted p _ ih

theorem sortKeys_eq_self {α : Type} (l : List (String × α))
    (h : sortedKeysList l = true) : sortKeys l = l := by
  induction l with
  | nil => rfl
  | cons p t ih =>
    cases t with
    | nil => rfl
    | cons q s =>
      have h1 : strLe p.1 q.1 = true := by simp [sortedKeysList] at h; exact h.1
      have h2 : sortedKeysList (q :: s) = true := by simp [sortedKeysList] at h; exact h.2
      show insKey p (sortKeys (q :: s)) = p :: q :: s
      rw [ih h2]
      simp [insKey, h1]

theorem sortKeys_idem {α : Type} (l : List (String × α)) :
    sortKeys (sortKeys l) = sortKeys l :=
  sortKeys_eq_self _ (sortKeys_sorted l)

/-- Mapping over values commutes with key insertion. -/
theorem insKey_map_val {α β : Type} (f : α → β) (p : String × α) (l : List (String × α)) :
    (insKey p l).map (fun q => (q.1, f q.2)) =
      insKey (p.1, f p.2) (l.map (fun q => (q.1, f q.2))) := by
  induction l with
  | nil => rfl
  | cons q t ih =>
    by_cases h : strLe p.1 q.1 = true
    · simp [insKey, h]
    · simp [insKey, h, ih]

/-- Mapping over values commutes with key sorting. -/
theorem sortKeys_map_val {α β : Type} (f : α → β) (l : List (String × α)) :
    sortKeys (l.map (fun q => (q.1, f q.2))) = (sortKeys l).map (fun q => (q.1, f q.2)) := by
  induction l with
  | nil => rfl
  | cons p t ih => simp [sortKeys, ih, insKey_map_val]

/-! ## `YMap` sorting and its relation to list-level sorting -/

theorem insYMap_ofList (k : String) (v : Yaml) (l : List (String × Yaml)) :
    insYMap k v (YMap.ofList l) = YMap.ofList (insKey (k, v) l) := by
  induction l with
  | nil => rfl
  | cons p t ih =>
    cases p with
    | mk k2 v2 =>
      by_cases h : strLe k k2 = true
      · simp [YMap.ofList, insYMap, insKey, h]
      · simp [YMap.ofList, insYMap, insKey, h, ih]

theorem sortYMap_ofList (l : List (String × Yaml)) :
    sortYMap (YMap.ofList l) = YMap.ofList (sortKeys l) := by
  induction l with
  | nil => rfl
  | cons p t ih => cases p; simp [YMap.ofList, sortYMap, sortKeys, ih, insYMap_ofList]

theorem canonYMapVals_ofList (l : List (String × Yaml)) :
    canonYMapVals (YMap.ofList l) = YMap.ofList (l.map (fun p => (p.1, canonYaml p.2))) := by
  induction l with
  | nil => rfl
  | cons p t ih => cases p; simp [YMap.ofList, canonYMapVals, ih]

theorem YMap.ofList_toList : (m : YMap) → YMap.ofList m.toList = m
  | .nil => rfl
  | .cons k v t => by simp [YMap.toList, YMap.ofList, YMap.ofList_toList t]

theorem sortYMap_via_list (m : YMap) : sortYMap m = YMap.ofList (sortKeys m.toList) := by
  conv_lhs => rw [← YMap.ofList_toList m]
  rw [sortYMap_ofList]

theorem sortYMap_idem (m : YMap) : sortYMap (sortYMap m) = sortYMap m := by
  rw [sortYMap_via_list m, sortYMap_via_list, YMap.toList_ofList, sortKeys_idem]

theorem canonYMapVals_insYMap (k : String) (v : Yaml) :
    (t : YMap) → canonYMapVals (insYMap k v t) = insYMap k (canonYaml v) (canonYMapVals t)
  | .nil => rfl
  | .cons k2 v2 s => by
    by_cases h : strLe k k2 = true
    · simp [insYMap, canonYMapVals, h]
    · simp [insYMap, canonYMapVals, h, canonYMapVals_insYMap k v s]

theorem canonYMapVals_sortYMap :
    (m : YMap) → canonYMapVals (sortYMap m) = sortYMap (canonYMapVals m)
  | .nil => rfl
  | .cons k v t => by
    simp [sortYMap, canonYMapVals, canonYMapVals_insYMap, canonYMapVals_sortYMap t]

mutual

theorem canonYaml_idem : (y : Yaml) → canonYaml (canonYaml y) = canonYaml y
  | .null => rfl
  | .bool _ => rfl
  | .int _ => rfl
  | .str _ => rfl
  | .list l => by simp [canonYaml, canonYList_idem l]
  | .map m => by
    simp [canonYaml, canonYMapVals_sortYMap, canonYMapVals_idem m, sortYMap_idem]

theorem canonYList_idem : (l : YList) → canonYList (canonYList l) = canonYList l
  | .nil => rfl
  | .cons h t => by simp [canonYList, canonYaml_idem h, canonYList_idem t]

theorem canonYMapVals_idem : (m : YMap) → canonYMapVals (canonYMapVals m) = canonYMapVals m
  | .nil => rfl
  | .cons k v t => by simp [canonYMapVals, canonYaml_idem v, canonYMapVals_idem t]

end

/-! ## Canonical forms of dumped values -/

theorem canonYaml_optStrY (o : Option String) : canonYaml (optStrY o) = optStrY o := by
  cases o <;> rfl

theorem canonYaml_optIntY (o : Option Int) : canonYaml (optIntY o) = optIntY o := by
  cases o <;> rfl

theorem canonYMapVals_strDictY (l : List (String × String)) :
    canonYMapVals (strDictY l) = strDictY l := by
  simp [strDictY, canonYMapVals_ofList, List.map_map]
  rfl

theorem canonYaml_strDictY (l : List (String × String)) :
    canonYaml (.map (strDictY l)) = .map (strDictY (sortKeys l)) := by
  show Yaml.map (sortYMap (canonYMapVals (strDictY l))) = _
  rw [canonYMapVals_strDictY]
  simp [strDictY, sortYMap_ofList, sortKeys_map_val]

theorem canonYList_strListY (l : List String) : canonYList (strListY l) = strListY l := by
  induction l with
  | nil => rfl
  | cons s t ih => simp [strListY, canonYList, canonYaml, ih]

theorem canonYaml_strListY (l : List String) :
    canonYaml (.list (strListY l)) = .list (strListY l) := by
  simp [canonYaml, canonYList_strListY]

theorem canonYaml_mapOfList (l : List (String × Yaml)) :
    canonYaml (.map (YMap.ofList l)) =
      .map (YMap.ofList (sortKeys (l.map (fun p => (p.1, canonYaml p.2))))) := by
  simp [canonYaml, canonYMapVals_ofList, sortYMap_ofList]

/-! ## Python value lemmas -/

theorem pyDict_toList_ofList (l : List (String × Py)) : (PyDict.ofList l).toList = l := by
  induction l with
  | nil => rfl
  | cons h t ih => cases h; simp [PyDict.ofList, PyDict.toList, ih]

theorem canonPyVals_ofList (l : List (String × Py)) :
    canonPyVals (PyDict.ofList l) = PyDict.ofList (l.map (fun p => (p.1, canonPy p.2))) := by
  induction l with
  | nil => rfl
  | cons p t ih => cases p; simp [PyDict.ofList, canonPyVals, ih]

theorem canonPyVals_toList : (m : PyDict) →
    (canonPyVals m).toList = m.toList.map (fun p => (p.1, canonPy p.2))
  | .nil => rfl
  | .cons k v t => by simp [canonPyVals, PyDict.toList, canonPyVals_toList t]

theorem sortPyDict_idem (m : PyDict) : sortPyDict (sortPyDict m) = sortPyDict m := by
  unfold sortPyDict
  rw [pyDict_toList_ofList, sortKeys_idem]

theorem canonPyVals_sortPyDict (m : PyDict) :
    canonPyVals (sortPyDict m) = sortPyDict (canonPyVals m) := by
  unfold sortPyDict
  rw [canonPyVals_ofList, canonPyVals_toList, sortKeys_map_val]

mutual

theorem canonPy_idem : (v : Py) → canonPy (canonPy v) = canonPy v
  | .null => rfl
  | .bool _ => rfl
  | .int _ => rfl
  | .str _ => rfl
  | .list l => by simp [canonPy, canonPyList_idem l]
  | .tuple l => by simp [canonPy, canonPyList_idem l]
  | .dict m => by
    simp [canonPy, canonPyVals_sortPyDict, canonPyVals_idem m, sortPyDict_idem]

theorem canonPyList_idem : (l : PyList) → canonPyList (canonPyList l) = canonPyList l
  | .nil => rfl
  | .cons h t => by simp [canonPyList, canonPy_idem h, canonPyList_idem t]

theorem canonPyVals_idem : (m : PyDict) → canonPyVals (canonPyVals m) = canonPyVals m
  | .nil => rfl
  | .cons k v t => by simp [canonPyVals, canonPy_idem v, canonPyVals_idem t]

end

mutual

theorem pyToJson_yamlToPy : (y : Yaml) → pyToJson (yamlToPy y) = y
  | .null => rfl
  | .bool _ => rfl
  | .int _ => rfl
  | .str _ => rfl
  | .list l => by simp [yamlToPy, pyToJson, pyToJsonList_yamlToPyList l]
  | .map m => by simp [yamlToPy, pyToJson, pyToJsonDict_ymapToPyDict m]

theorem pyToJsonList_yamlToPyList : (l : YList) → pyToJsonList (yamlToPyList l) = l
  | .nil => rfl
  | .cons h t => by
    simp [yamlToPyList, pyToJsonList, pyToJson_yamlToPy h, pyToJsonList_yamlToPyList t]

theorem pyToJsonDict_ymapToPyDict : (m : YMap) → pyToJsonDict (ymapToPyDict m) = m
  | .nil => rfl
  | .cons k v t => by
    simp [ymapToPyDict, pyToJsonDict, pyToJson_yamlToPy v, pyToJsonDict_ymapToPyDict t]

end

theorem pyToJsonDict_eq_ofList : (m : PyDict) →
    pyToJsonDict m = YMap.ofList (m.toList.map (fun p => (p.1, pyToJson p.2)))
  | .nil => rfl
  | .cons k v t => by
    simp [pyToJsonDict, PyDict.toList, YMap.ofList, pyToJsonDict_eq_ofList t]

theorem pyToJsonDict_sortPyDict (m : PyDict) :
    pyToJsonDict (sortPyDict m) = sortYMap (pyToJsonDict m) := by
  unfold sortPyDict
  rw [pyToJsonDict_eq_ofList, pyDict_toList_ofList, ← sortKeys_map_val, ← sortYMap_ofList,
    ← pyToJsonDict_eq_ofList]

theorem ymapToPyDict_eq_ofList : (m : YMap) →
    ymapToPyDict m = PyDict.ofList (m.toList.map (fun p => (p.1, yamlToPy p.2)))
  | .nil => rfl
  | .cons k v t => by
    simp [ymapToPyDict, YMap.toList, PyDict.ofList, ymapToPyDict_eq_ofList t]

theorem ymapToPyDict_sortYMap (m : YMap) :
    ymapToPyDict (sortYMap m) = sortPyDict (ymapToPyDict m) := by
  rw [sortYMap_via_list, ymapToPyDict_eq_ofList, YMap.toList_ofList, ← sortKeys_map_val,
    ymapToPyDict_eq_ofList m]
  unfold sortPyDict
  rw [pyDict_toList_ofList]

mutual

theorem canonJson_canonPy : (v : Py) →
    canonYaml (pyToJson (canonPy v)) = canonYaml (pyToJson v)
  | .null => rfl
  | .bool _ => rfl
  | .int _ => rfl
  | .str _ => rfl
  | .list l => by simp [canonPy, pyToJson, canonYaml, canonJson_canonPyList l]
  | .tuple l => by simp [canonPy, pyToJson, canonYaml, canonJson_canonPyList l]
  | .dict m => by
    show Yaml.map (sortYMap (canonYMapVals (pyToJsonDict (sortPyDict (canonPyVals m))))) = _
    rw [pyToJsonDict_sortPyDict, canonYMapVals_sortYMap, sortYMap_idem,
      canonJsonVals_canonPyVals m]
    rfl

theorem canonJson_canonPyList : (l : PyList) →
    canonYList (pyToJsonList (canonPyList l)) = canonYList (pyToJsonList l)
  | .nil => rfl
  | .cons hd t => by
    simp [canonPyList, pyToJsonList, canonYList, canonJson_canonPy hd,
      canonJson_canonPyList t]

theorem canonJsonVals_canonPyVals : (m : PyDict) →
    canonYMapVals (pyToJsonDict (canonPyVals m)) = canonYMapVals (pyToJsonDict m)
  | .nil => rfl
  | .cons k v t => by
    simp [canonPyVals, pyToJsonDict, canonYMapVals, canonJson_canonPy v,
      canonJsonVals_canonPyVals t]

end

mutual

theorem pyCanonJson_jsonSafe : (v : Py) → jsonSafe v = true →
    yamlToPy (canonYaml (pyToJson v)) = canonPy v
  | .null, _ => rfl
  | .bool _, _ => rfl
  | .int _, _ => rfl
  | .str _, _ => rfl
  | .list l, h => by
    simp only [jsonSafe] at h
    simp [pyToJson, canonYaml, yamlToPy, canonPy, pyCanonJsonList_jsonSafe l h]
  | .tuple l, h => by simp [jsonSafe] at h
  | .dict m, h => by
    simp only [jsonSafe] at h
    show yamlToPy (.map (sortYMap (canonYMapVals (pyToJsonDict m)))) = _
    rw [show yamlToPy (Yaml.map (sortYMap (canonYMapVals (pyToJsonDict m))))
        = Py.dict (ymapToPyDict (sortYMap (canonYMapVals (pyToJsonDict m)))) from rfl]
    rw [ymapToPyDict_sortYMap, pyCanonJsonDict_jsonSafe m h]
    rfl

theorem pyCanonJsonList_jsonSafe : (l : PyList) → jsonSafeList l = true →
    yamlToPyList (canonYList (pyToJsonList l)) = canonPyList l
  | .nil, _ => rfl
  | .cons hd t, hs => by
    simp only [jsonSafeList, Bool.and_eq_true] at hs
    simp [pyToJsonList, canonYList, yamlToPyList, canonPyList,
      pyCanonJson_jsonSafe hd hs.1, pyCanonJsonList_jsonSafe t hs.2]

theorem pyCanonJsonDict_jsonSafe : (m : PyDict) → jsonSafeDict m = true →
    ymapToPyDict (canonYMapVals (pyToJsonDict m)) = canonPyVals m
  | .nil, _ => rfl
  | .cons k v t, hs => by
    simp only [jsonSafeDict, Bool.and_eq_true] at hs
    simp [pyToJsonDict, canonYMapVals, ymapToPyDict, canonPyVals,
      pyCanonJson_jsonSafe v hs.1, pyCanonJsonDict_jsonSafe t hs.2]

end

theorem eqCanonService_canonService (s : ServiceConfig) (hjs : svcJsonSafe s = true) :
    eqCanonService (canonService s) = eqCanonService s := by
  unfold eqCanonService canonService
  have hx : ∀ p ∈ s.extra, ((fun p : String × Py => (p.1, canonPy (pyCanonJson p.2))) p)
      = ((fun p : String × Py => (p.1, canonPy p.2)) p) := by
    intro p hp
    have hjs' : jsonSafe p.2 = true := by
      have := List.all_eq_true.mp hjs p hp
      simpa using this
    have h1 : pyCanonJson p.2 = canonPy p.2 := pyCanonJson_jsonSafe p.2 hjs'
    simp [h1, canonPy_idem]
  simp only [sortKeys_idem, ← sortKeys_map_val (fun x : Py => canonPy x), List.map_map,
    Function.comp_def]
  rw [List.map_congr_left hx]

theorem eqCanonApp_canonApp (a : ApplicationConfig)
    (hjs : a.dependencies.all (fun p => svcJsonSafe p.2) = true) :
    eqCanonApp (canonApp a) = eqCanonApp a := by
  unfold eqCanonApp canonApp
  have hx : ∀ p ∈ a.dependencies,
      ((fun p : String × ServiceConfig => (p.1, eqCanonService (canonService p.2))) p)
      = ((fun p : String × ServiceConfig => (p.1, eqCanonService p.2)) p) := by
    intro p hp
    have hjs' : svcJsonSafe p.2 = true := List.all_eq_true.mp hjs p hp
    simp [eqCanonService_canonService p.2 hjs']
  simp only [sortKeys_idem, ← sortKeys_map_val (fun x : ServiceConfig => eqCanonService x),
    List.map_map, Function.comp_def]
  rw [List.map_congr_left hx]

theorem eqCanonConfig_canonConfig (c : DockLiftConfig) (hjs : configJsonSafe c = true) :
    eqCanonConfig (canonConfig c) = eqCanonConfig c := by
  unfold eqCanonConfig canonConfig
  rw [eqCanonApp_canonApp c.application (by simpa [configJsonSafe] using hjs)]

theorem pyEqConfig_canon (c : DockLiftConfig) (hjs : configJsonSafe c = true) :
    pyEqConfig (canonConfig c) c = true := by
  simp [pyEqConfig, eqCanonConfig_canonConfig c hjs]

/-! ## Explicit canonical forms of the dumped models -/

theorem canonYaml_vpsDump (v : VPSConfig) :
    canonYaml v.dump =
      .map (.cons "email" (optStrY v.email) (.cons "host" (.str v.host)
        (.cons "port" (.int v.port) (.cons "ssh_key_path" (.str v.ssh_key_path)
          (.cons "user" (.str v.user) .nil))))) := by
  show Yaml.map (sortYMap (canonYMapVals _)) = _
  simp only [canonYMapVals, canonYaml, canonYaml_optStrY]
  rfl

theorem canonYaml_svcDump (s : ServiceConfig) :
    canonYaml s.dump =
      .map (.cons "depends_on" (.list (strListY s.depends_on))
        (.cons "environment" (.map (strDictY (sortKeys s.environment)))
          (.cons "extra" (.map (YMap.ofList
              (sortKeys (s.extra.map (fun p => (p.1, canonYaml (pyToJson p.2)))))))
            (.cons "image" (optStrY s.image)
              (.cons "ports" (.list (strListY s.ports))
                (.cons "volumes" (.list (strListY s.volumes)) .nil)))))) := by
  show Yaml.map (sortYMap (canonYMapVals _)) = _
  simp only [canonYMapVals, canonYaml_optStrY, canonYaml_strDictY, canonYaml_strListY,
    canonYaml_mapOfList, YMap.toList_ofList, List.map_map, Function.comp_def]
  rfl

theorem canonYaml_appDump (a : ApplicationConfig) :
    canonYaml a.dump =
      .map (.cons "context" (.str a.context)
        (.cons "dependencies" (.map (YMap.ofList
            (sortKeys (a.dependencies.map (fun p => (p.1, canonYaml p.2.dump))))))
          (.cons "dockerfile" (.str a.dockerfile)
            (.cons "domain" (.str a.domain)
              (.cons "environment" (.map (strDictY (sortKeys a.environment)))
                (.cons "name" (.str a.name)
                  (.cons "port" (optIntY a.port) .nil))))))) := by
  show Yaml.map (sortYMap (canonYMapVals _)) = _
  simp only [canonYMapVals, canonYaml_optIntY, canonYaml_strDictY, svcDictY,
    canonYaml_mapOfList, List.map_map, Function.comp_def]
  rfl

theorem canonYaml_configDump (c : DockLiftConfig) :
    canonYaml c.dump =
      .map (.cons "application" (canonYaml c.application.dump)
        (.cons "vps" (canonYaml c.vps.dump) .nil)) := by
  show Yaml.map (sortYMap (canonYMapVals _)) = _
  simp only [canonYMapVals]
  rfl

/-! ## Decoding dumped values -/

theorem vStrEntries_strDictY (name : String) : (l : List (String × String)) →
    vStrEntries name (strDictY l) = .ok l
  | [] => rfl
  | (k, v) :: t => by
    show vStrEntries name (.cons k (.str v) (strDictY t)) = .ok ((k, v) :: t)
    simp [vStrEntries, vApp, vStrEntries_strDictY name t]

theorem vStrItems_strListY (name : String) : (l : List String) →
    vStrItems name (strListY l) = .ok l
  | [] => rfl
  | s :: t => by
    show vStrItems name (.cons (.str s) (strListY t)) = .ok (s :: t)
    simp [vStrItems, vApp, vStrItems_strListY name t]

theorem svc_decode (s : ServiceConfig) :
    ServiceConfig.validateFields (.cons "depends_on" (.list (strListY s.depends_on))
      (.cons "environment" (.map (strDictY (sortKeys s.environment)))
        (.cons "extra" (.map (YMap.ofList
            (sortKeys (s.extra.map (fun p => (p.1, canonYaml (pyToJson p.2)))))))
          (.cons "image" (optStrY s.image)
            (.cons "ports" (.list (strListY s.ports))
              (.cons "volumes" (.list (strListY s.volumes)) .nil))))))
      = .ok (canonService s) := by
  cases hoi : s.image <;>
    simp [ServiceConfig.validateFields, YMap.get, vOptStr, vStrDict, vStrList, vAnyDict,
      vStrEntries_strDictY, vStrItems_strListY, YMap.toList_ofList, vApp, canonService,
      optStrY, hoi, ← sortKeys_map_val (fun x : Yaml => yamlToPy x), List.map_map,
      Function.comp_def, pyCanonJson]

theorem vSvcEntries_decode : (l : List (String × ServiceConfig)) →
    vSvcEntries (YMap.ofList (l.map (fun p => (p.1, canonYaml p.2.dump))))
      = .ok (l.map (fun p => (p.1, canonService p.2)))
  | [] => rfl
  | (k, s) :: t => by
    show vSvcEntries (.cons k (canonYaml s.dump)
      (YMap.ofList (t.map (fun p => (p.1, canonYaml p.2.dump))))) = _
    rw [canonYaml_svcDump]
    simp [vSvcEntries, vNestErr, svc_decode, vApp, vSvcEntries_decode t]

theorem app_decode (a : ApplicationConfig) :
    ApplicationConfig.validateFields (.cons "context" (.str a.context)
      (.cons "dependencies" (.map (YMap.ofList
          (sortKeys (a.dependencies.map (fun p => (p.1, canonYaml p.2.dump))))))
        (.cons "dockerfile" (.str a.dockerfile)
          (.cons "domain" (.str a.domain)
            (.cons "environment" (.map (strDictY (sortKeys a.environment)))
              (.cons "name" (.str a.name)
                (.cons "port" (optIntY a.port) .nil)))))))
      = .ok (canonApp a) := by
  cases a with
  | mk n d df cx pt ev dp =>
    cases pt <;>
      simp [ApplicationConfig.validateFields, YMap.get, vReqStr, vDefStr, vOptInt, vStrDict,
        vSvcDict, vStrEntries_strDictY, sortKeys_map_val (fun x : ServiceConfig => canonYaml x.dump),
        sortKeys_map_val, vSvcEntries_decode, vApp, canonApp, optIntY]

theorem vps_decode (env : Env) (fs : FS) (v : VPSConfig)
    (hssh : validate_ssh_key_path env fs v.ssh_key_path = .ok v.ssh_key_path) :
    VPSConfig.validateFields env fs (.cons "email" (optStrY v.email)
      (.cons "host" (.str v.host) (.cons "port" (.int v.port)
        (.cons "ssh_key_path" (.str v.ssh_key_path) (.cons "user" (.str v.user) .nil)))))
      = .ok v := by
  cases v with
  | mk h u k pt em =>
    cases em <;>
      simp_all [VPSConfig.validateFields, YMap.get, vReqStr, vDefInt, vOptStr, vApp, optStrY]

theorem config_decode (env : Env) (fs : FS) (c : DockLiftConfig)
    (hssh : validate_ssh_key_path env fs c.vps.ssh_key_path = .ok c.vps.ssh_key_path) :
    DockLiftConfig.validateFields env fs
      (.cons "application" (canonYaml c.application.dump)
        (.cons "vps" (canonYaml c.vps.dump) .nil))
      = .ok (canonConfig c) := by
  rw [canonYaml_vpsDump, canonYaml_appDump]
  simp [DockLiftConfig.validateFields, YMap.get, vNestedVps, vNestedApp,
    vps_decode env fs c.vps hssh, app_decode, vNestErr, vApp, canonConfig]

/-! ## Effects of `to_yaml` on the filesystem -/

theorem lookup_filter_ne {q p : String} (l : List (String × Document)) (h : q ≠ p) :
    (l.filter (fun x => !(x.1 == p))).lookup q = l.lookup q := by
  induction l with
  | nil => rfl
  | cons x t ih =>
    by_cases hx : x.1 = p
    · have hxq : (q == x.1) = false := by subst hx; simpa using h
      have hfx : (!(x.1 == p)) = false := by simp [hx]
      simp [List.filter_cons, hfx, List.lookup, hxq, ih]
    · have hfx : (!(x.1 == p)) = true := by simp [hx]
      by_cases hq : q = x.1
      · simp [List.filter_cons, hfx, List.lookup, hq]
      · have hxq : (q == x.1) = false := by simpa using hq
        simp [List.filter_cons, hfx, List.lookup, hxq, ih]

theorem to_yaml_spec (c : DockLiftConfig) (path : String) (fs fs' : FS)
    (hok : DockLiftConfig.to_yaml c path fs = .ok fs') :
    fs' = ⟨(pathNorm path, ⟨some (toTopDoc (canonYaml c.dump)), false⟩) ::
             fs.files.filter (fun q => !(q.1 == pathNorm path)),
           fs.dirs ++ (prefixesFrom (pathParts path).1 [] (pathParts path).2.dropLast).filter
             (fun d => !(fs.dirs.contains d))⟩ := by
  simp only [DockLiftConfig.to_yaml, pathNorm] at hok ⊢
  split at hok
  · exact absurd hok (by simp)
  · split at hok
    · exact absurd hok (by simp)
    · simp only [Except.ok.injEq] at hok
      exact hok.symm

theorem to_yaml_lookup (c : DockLiftConfig) (path : String) (fs fs' : FS)
    (hok : DockLiftConfig.to_yaml c path fs = .ok fs') :
    fs'.files.lookup (pathNorm path) = some ⟨some (toTopDoc (canonYaml c.dump)), false⟩ := by
  rw [to_yaml_spec c path fs fs' hok]
  simp [List.lookup]

theorem to_yaml_lookup_other (c : DockLiftConfig) (path : String) (fs fs' : FS)
    (hok : DockLiftConfig.to_yaml c path fs = .ok fs') (q : String)
    (hq : q ≠ pathNorm path) :
    fs'.files.lookup q = fs.files.lookup q := by
  rw [to_yaml_spec c path fs fs' hok]
  have hbq : (q == pathNorm path) = false := by simpa using hq
  simp [List.lookup, hbq, lookup_filter_ne _ hq]

theorem to_yaml_exists_mono (c : DockLiftConfig) (path : String) (fs fs' : FS)
    (hok : DockLiftConfig.to_yaml c path fs = .ok fs') (q : String)
    (h : fs.exists q = true) : fs'.exists q = true := by
  by_cases hq : q = pathNorm path
  · subst hq
    simp [FS.exists, to_yaml_lookup c path fs fs' hok]
  · simp only [FS.exists, Bool.or_eq_true] at h ⊢
    rw [to_yaml_lookup_other c path fs fs' hok q hq]
    rcases h with h | h
    · exact Or.inl h
    · refine Or.inr ?_
      rw [to_yaml_spec c path fs fs' hok]
      have hm : q ∈ fs.dirs := by simpa [List.contains, List.elem_iff] using h
      simp [List.contains, List.elem_iff, List.mem_append]
      exact Or.inl hm

theorem sortedYMapKeys_ofList : (l : List (String × Yaml)) →
    sortedYMapKeys (YMap.ofList l) = sortedKeysList l
  | [] => rfl
  | [(_, _)] => rfl
  | (k, v) :: (k2, v2) :: t => by
    show (strLe k k2 && sortedYMapKeys (YMap.ofList ((k2, v2) :: t)))
      = (strLe k k2 && sortedKeysList ((k2, v2) :: t))
    rw [sortedYMapKeys_ofList ((k2, v2) :: t)]

theorem sortedDocMap_insYMap (k : String) (v : Yaml) : (t : YMap) →
    sortedDocMap (insYMap k v t) = (sortedDoc v && sortedDocMap t)
  | .nil => by simp [insYMap, sortedDocMap]
  | .cons k2 v2 s => by
    by_cases h : strLe k k2 = true
    · simp [insYMap, h, sortedDocMap]
    · simp [insYMap, h, sortedDocMap, sortedDocMap_insYMap k v s]
      by_cases h1 : sortedDoc v2 = true <;> by_cases h2 : sortedDoc v = true <;>
        simp [h1, h2]

theorem sortedDocMap_sortYMap : (m : YMap) → sortedDocMap (sortYMap m) = sortedDocMap m
  | .nil => rfl
  | .cons k v t => by
    simp [sortYMap, sortedDocMap, sortedDocMap_insYMap, sortedDocMap_sortYMap t]

theorem sortedYMapKeys_sortYMap (m : YMap) : sortedYMapKeys (sortYMap m) = true := by
  rw [sortYMap_via_list, sortedYMapKeys_ofList]
  exact sortKeys_sorted _

mutual

theorem canonYaml_sortedDoc : (y : Yaml) → sortedDoc (canonYaml y) = true
  | .null => rfl
  | .bool _ => rfl
  | .int _ => rfl
  | .str _ => rfl
  | .list l => by simp [canonYaml, sortedDoc, canonYList_sortedDoc l]
  | .map m => by
    simp [canonYaml, sortedDoc, sortedYMapKeys_sortYMap, sortedDocMap_sortYMap,
      canonYMapVals_sortedDoc m]

theorem canonYList_sortedDoc : (l : YList) → sortedDocList (canonYList l) = true
  | .nil => rfl
  | .cons h t => by
    simp [canonYList, sortedDocList, canonYaml_sortedDoc h, canonYList_sortedDoc t]

theorem canonYMapVals_sortedDoc : (m : YMap) → sortedDocMap (canonYMapVals m) = true
  | .nil => rfl
  | .cons k v t => by
    simp [canonYMapVals, sortedDocMap, canonYaml_sortedDoc v, canonYMapVals_sortedDoc t]

end

theorem vApp_plain {α β : Type} {f : Val (α → β)} {x : Val α}
    (hf : plainVal f) (hx : plainVal x) : plainVal (vApp f x) := by
  intro e h
  cases f with
  | ok g =>
    cases x with
    | ok a => simp [vApp] at h
    | error v => exact hx e (by simp [vApp] at h; rw [h])
  | error v =>
    cases v with
    | exn e2 =>
      have : e2 = e := by simpa [vApp] using h
      exact hf e (by rw [← this])
    | msgs l =>
      cases x with
      | ok a => simp [vApp] at h
      | error w =>
        cases w with
        | msgs l2 => simp [vApp] at h
        | exn e2 => exact hx e (by simp [vApp] at h; rw [h])

theorem vNestErr_plain {α : Type} (p : String) {x : Val α}
    (hx : plainVal x) : plainVal (vNestErr p x) := by
  intro e h
  cases x with
  | ok a => simp [vNestErr] at h
  | error v =>
    cases v with
    | msgs l => simp [vNestErr] at h
    | exn e2 => exact hx e (by simpa [vNestErr] using h)

theorem vReqStr_plain (name : String) (o : Option Yaml) : plainVal (vReqStr name o) := by
  intro e h
  cases o with
  | none => simp [vReqStr] at h
  | some y => cases y <;> simp [vReqStr] at h

theorem vDefStr_plain (name dflt : String) (o : Option Yaml) : plainVal (vDefStr name dflt o) := by
  intro e h
  cases o with
  | none => simp [vDefStr] at h
  | some y => cases y <;> simp [vDefStr] at h

theorem vOptStr_plain (name : String) (o : Option Yaml) : plainVal (vOptStr name o) := by
  intro e h
  cases o with
  | none => simp [vOptStr] at h
  | some y => cases y <;> simp [vOptStr] at h

theorem vDefInt_plain (name : String) (dflt : Int) (o : Option Yaml) :
    plainVal (vDefInt name dflt o) := by
  intro e h
  cases o with
  | none => simp [vDefInt] at h
  | some y =>
    cases y <;> simp [vDefInt] at h
    case str s => cases hs : s.toInt? <;> simp [hs] at h

theorem vOptInt_plain (name : String) (o : Option Yaml) : plainVal (vOptInt name o) := by
  intro e h
  cases o with
  | none => simp [vOptInt] at h
  | some y =>
    cases y <;> simp [vOptInt] at h
    case str s => cases hs : s.toInt? <;> simp [hs] at h

theorem vStrEntries_plain (name : String) : (m : YMap) → plainVal (vStrEntries name m)
  | .nil => by intro e h; simp [vStrEntries] at h
  | .cons k v t => by
    refine vApp_plain (vApp_plain ?_ ?_) (vStrEntries_plain name t)
    · intro e h; simp at h
    · intro e h; cases v <;> simp at h

theorem vStrDict_plain (name : String) (o : Option Yaml) : plainVal (vStrDict name o) := by
  cases o with
  | none => intro e h; simp [vStrDict] at h
  | some y =>
    cases y
    case map m => exact vStrEntries_plain name m
    all_goals (intro e h; simp [vStrDict] at h)

theorem vStrItems_plain (name : String) : (l : YList) → plainVal (vStrItems name l)
  | .nil => by intro e h; simp [vStrItems] at h
  | .cons v t => by
    refine vApp_plain (vApp_plain ?_ ?_) (vStrItems_plain name t)
    · intro e h; simp at h
    · intro e h; cases v <;> simp at h

theorem vStrList_plain (name : String) (o : Option Yaml) : plainVal (vStrList name o) := by
  cases o with
  | none => intro e h; simp [vStrList] at h
  | some y =>
    cases y
    case list l => exact vStrItems_plain name l
    all_goals (intro e h; simp [vStrList] at h)

theorem vAnyDict_plain (name : String) (o : Option Yaml) : plainVal (vAnyDict name o) := by
  intro e h
  cases o with
  | none => simp [vAnyDict] at h
  | some y => cases y <;> simp [vAnyDict] at h

theorem validate_ssh_key_path_plain (env : Env) (fs : FS) (v : String) :
    plainVal (validate_ssh_key_path env fs v) := by
  intro e h
  unfold validate_ssh_key_path at h
  cases hx : expanduserParts env (pathParts v) with
  | error msg =>
    rw [hx] at h
    exact ⟨msg, by simpa using h.symm⟩
  | ok ap =>
    rw [hx] at h
    by_cases he : fs.exists (renderPath ap) = true <;> simp [he] at h

theorem vps_validateFields_plain (env : Env) (fs : FS) (kw : YMap) :
    plainVal (VPSConfig.validateFields env fs kw) := by
  unfold VPSConfig.validateFields
  refine vApp_plain (vApp_plain (vApp_plain (vApp_plain (vApp_plain ?_ ?_) ?_) ?_) ?_) ?_
  · intro e h; simp at h
  · exact vReqStr_plain _ _
  · exact vReqStr_plain _ _
  · cases hv : vReqStr "ssh_key_path" (kw.get "ssh_key_path") with
    | ok v => exact validate_ssh_key_path_plain env fs v
    | error er =>
      intro e h
      have her : er = .exn e := by simpa using h
      exact vReqStr_plain "ssh_key_path" (kw.get "ssh_key_path") e (by rw [hv, her])
  · exact vDefInt_plain _ _ _
  · exact vOptStr_plain _ _

theorem svc_validateFields_plain (kw : YMap) : plainVal (ServiceConfig.validateFields kw) := by
  unfold ServiceConfig.validateFields
  exact vApp_plain (vApp_plain (vApp_plain (vApp_plain (vApp_plain (vApp_plain
    (fun e h => by simp at h) (vOptStr_plain _ _)) (vStrDict_plain _ _)) (vStrList_plain _ _))
    (vStrList_plain _ _)) (vStrList_plain _ _)) (vAnyDict_plain _ _)

theorem vSvcEntries_plain : (m : YMap) → plainVal (vSvcEntries m)
  | .nil => by intro e h; simp [vSvcEntries] at h
  | .cons k v t => by
    refine vApp_plain (vApp_plain (fun e h => by simp at h) ?_) (vSvcEntries_plain t)
    cases v
    case map m => exact vNestErr_plain _ (svc_validateFields_plain m)
    all_goals (intro e h; simp at h)

theorem vSvcDict_plain (o : Option Yaml) : plainVal (vSvcDict o) := by
  cases o with
  | none => intro e h; simp [vSvcDict] at h
  | some y =>
    cases y
    case map m => exact vSvcEntries_plain m
    all_goals (intro e h; simp [vSvcDict] at h)

theorem app_validateFields_plain (kw : YMap) : plainVal (ApplicationConfig.validateFields kw) := by
  unfold ApplicationConfig.validateFields
  exact vApp_plain (vApp_plain (vApp_plain (vApp_plain (vApp_plain (vApp_plain (vApp_plain
    (fun e h => by simp at h) (vReqStr_plain _ _)) (vReqStr_plain _ _)) (vDefStr_plain _ _ _))
    (vDefStr_plain _ _ _)) (vOptInt_plain _ _)) (vStrDict_plain _ _)) (vSvcDict_plain _)

theorem config_validateFields_plain (env : Env) (fs : FS) (kw : YMap) :
    plainVal (DockLiftConfig.validateFields env fs kw) := by
  unfold DockLiftConfig.validateFields
  refine vApp_plain (vApp_plain (fun e h => by simp at h) ?_) ?_
  · cases ho : kw.get "vps" with
    | none => intro e h; simp [vNestedVps] at h
    | some y =>
      cases y
      case map m => exact vNestErr_plain _ (vps_validateFields_plain env fs m)
      all_goals (intro e h; simp [vNestedVps] at h)
  · cases ho : kw.get "application" with
    | none => intro e h; simp [vNestedApp] at h
    | some y =>
      cases y
      case map m => exact vNestErr_plain _ (app_validateFields_plain m)
      all_goals (intro e h; simp [vNestedApp] at h)

/-- A failing `cls(**data)` with mapping `data` is a `ValidationError` or
the validator's `RuntimeError`; never any other error and never a partial
object. -/
theorem toPy_classify {α : Type} (x : Val α) (hx : plainVal x) (e : PyErr)
    (h : x.toPy = .error e) :
    (∃ l, e = .validationError l) ∨ (∃ m, e = .runtimeError m) := by
  cases x with
  | ok a => simp [Val.toPy] at h
  | error v =>
    cases v with
    | msgs l => exact Or.inl ⟨l, by simpa [Val.toPy] using h.symm⟩
    | exn e2 =>
      have he2 : e2 = e := by simpa [Val.toPy] using h
      exact Or.inr (he2 ▸ hx e2 rfl)

theorem expanduserParts_id (env : Env) (ap : String × List String)
    (h : noTilde ap = true) : expanduserParts env ap = .ok ap := by
  obtain ⟨a, l⟩ := ap
  cases l with
  | nil => rfl
  | cons p rest =>
    unfold expanduserParts
    by_cases ha : a = ""
    · subst ha
      simp only [noTilde] at h
      have hh : ¬ (p.data.head? = some '~') := by simpa using h
      have hne : p ≠ "~" := by
        intro hp
        subst hp
        exact hh rfl
      simp [hne, hh]
    · simp [ha]

theorem vps_construct_eq (env : Env) (fs : FS) (h u v : String)
    (ap : String × List String)
    (hexp : expanduserParts env (pathParts v) = .ok ap) :
    VPSConfig.construct env fs h u v
      = if fs.exists (renderPath ap) = true
        then .ok ⟨h, u, renderPath ap, 22, none⟩
        else .error (.validationError
          ["ssh_key_path: Value error, SSH key not found at: " ++ v]) := by
  unfold VPSConfig.construct VPSConfig.validateFields validate_ssh_key_path
  simp only [YMap.get]
  simp [vReqStr, hexp, vDefInt, vOptStr]
  by_cases he : fs.exists (renderPath ap) = true <;> simp [he, vApp, Val.toPy]

theorem vps_construct_ok_inv (env : Env) (fs : FS) (h u v : String) (c : VPSConfig)
    (hok : VPSConfig.construct env fs h u v = .ok c) :
    ∃ ap, expanduserParts env (pathParts v) = .ok ap
      ∧ c = ⟨h, u, renderPath ap, 22, none⟩
      ∧ fs.exists (renderPath ap) = true := by
  cases hx : expanduserParts env (pathParts v) with
  | error m =>
    exfalso
    unfold VPSConfig.construct VPSConfig.validateFields validate_ssh_key_path at hok
    simp only [YMap.get] at hok
    simp [vReqStr, hx, vDefInt, vOptStr, vApp, Val.toPy] at hok
  | ok ap =>
    rw [vps_construct_eq env fs h u v ap hx] at hok
    by_cases he : fs.exists (renderPath ap) = true
    · rw [if_pos he] at hok
      exact ⟨ap, rfl, by simpa using hok.symm, he⟩
    · rw [if_neg he] at hok
      exact absurd hok (by simp)

theorem app_construct_defaults (n d : String) :
    ApplicationConfig.construct n d = .ok ⟨n, d, "./Dockerfile", ".", none, [], []⟩ := by
  unfold ApplicationConfig.construct ApplicationConfig.validateFields
  simp only [YMap.get]
  simp [vReqStr, vDefStr, vOptInt, vStrDict, vSvcDict, vApp, Val.toPy]

theorem valOk_ok {α : Type} {x : Val α} (h : valOk x = true) : ∃ a, x = .ok a := by
  cases x with
  | ok a => exact ⟨a, rfl⟩
  | error v => simp [valOk] at h

theorem YMap.get_mem {k : String} {v : Yaml} : (m : YMap) →
    YMap.get m k = some v → (k, v) ∈ m.toList
  | .nil => by intro h; simp [YMap.get] at h
  | .cons k2 v2 t => by
    intro h
    by_cases hk : k2 = k
    · subst hk
      simp [YMap.get] at h
      simp [YMap.toList, h]
    · simp [YMap.get, hk] at h
      simp [YMap.toList]
      exact Or.inr (YMap.get_mem t h)

theorem svc_construct_ok (kw : YMap)
    (hall : ∀ p ∈ kw.toList, svcFieldOk p.1 p.2 = true) :
    ∃ s, ServiceConfig.construct kw = .ok s := by
  have himg : ∃ a, vOptStr "image" (kw.get "image") = .ok a := by
    cases hg : kw.get "image" with
    | none => exact ⟨none, rfl⟩
    | some v =>
      have := hall _ (YMap.get_mem kw hg)
      simp only [svcFieldOk, if_pos rfl] at this
      exact valOk_ok this
  have henv : ∃ a, vStrDict "environment" (kw.get "environment") = .ok a := by
    cases hg : kw.get "environment" with
    | none => exact ⟨[], rfl⟩
    | some v =>
      have := hall _ (YMap.get_mem kw hg)
      simp only [svcFieldOk] at this
      norm_num at this
      exact valOk_ok this
  have hvol : ∃ a, vStrList "volumes" (kw.get "volumes") = .ok a := by
    cases hg : kw.get "volumes" with
    | none => exact ⟨[], rfl⟩
    | some v =>
      have := hall _ (YMap.get_mem kw hg)
      simp only [svcFieldOk] at this
      norm_num at this
      exact valOk_ok this
  have hpt : ∃ a, vStrList "ports" (kw.get "ports") = .ok a := by
    cases hg : kw.get "ports" with
    | none => exact ⟨[], rfl⟩
    | some v =>
      have := hall _ (YMap.get_mem kw hg)
      simp only [svcFieldOk] at this
      norm_num at this
      exact valOk_ok this
  have hdep : ∃ a, vStrList "depends_on" (kw.get "depends_on") = .ok a := by
    cases hg : kw.get "depends_on" with
    | none => exact ⟨[], rfl⟩
    | some v =>
      have := hall _ (YMap.get_mem kw hg)
      simp only [svcFieldOk] at this
      norm_num at this
      exact valOk_ok this
  have hex : ∃ a, vAnyDict "extra" (kw.get "extra") = .ok a := by
    cases hg : kw.get "extra" with
    | none => exact ⟨[], rfl⟩
    | some v =>
      have := hall _ (YMap.get_mem kw hg)
      simp only [svcFieldOk] at this
      norm_num at this
      exact valOk_ok this
  obtain ⟨a1, h1⟩ := himg
  obtain ⟨a2, h2⟩ := henv
  obtain ⟨a3, h3⟩ := hvol
  obtain ⟨a4, h4⟩ := hpt
  obtain ⟨a5, h5⟩ := hdep
  obtain ⟨a6, h6⟩ := hex
  refine ⟨⟨a1, a2, a3, a4, a5, a6⟩, ?_⟩
  unfold ServiceConfig.construct ServiceConfig.validateFields
  rw [h1, h2, h3, h4, h5, h6]
  rfl

theorem svc_construct_err (kw : YMap) (e : PyErr)
    (h : ServiceConfig.construct kw = .error e) :
    ∃ p ∈ kw.toList, svcFieldOk p.1 p.2 = false := by
  by_contra hno
  push_neg at hno
  obtain ⟨s, hs⟩ := svc_construct_ok kw (fun p hp => by simpa using hno p hp)
  rw [hs] at h
  exact absurd h (by simp)

/-! ## The canonical dump depends only on the canonical form -/

theorem canon_svcDump_factor (s : ServiceConfig) :
    canonYaml (canonService s).dump = canonYaml s.dump := by
  rw [canonYaml_svcDump, canonYaml_svcDump]
  simp only [canonService, pyCanonJson, sortKeys_idem,
    sortKeys_map_val (fun x : Py => yamlToPy (canonYaml (pyToJson x))),
    List.map_map, Function.comp_def, pyToJson_yamlToPy, canonYaml_idem,
    ← sortKeys_map_val (fun x : Py => canonYaml (pyToJson x))]

theorem canon_appDump_factor (a : ApplicationConfig) :
    canonYaml (canonApp a).dump = canonYaml a.dump := by
  rw [canonYaml_appDump, canonYaml_appDump]
  simp only [canonApp, sortKeys_idem,
    sortKeys_map_val (fun x : ServiceConfig => canonService x),
    List.map_map, Function.comp_def, canon_svcDump_factor,
    sortKeys_map_val (fun x : ServiceConfig => canonYaml x.dump)]

theorem canon_dump_factor (c : DockLiftConfig) :
    canonYaml c.dump = canonYaml (canonConfig c).dump := by
  rw [canonYaml_configDump, canonYaml_configDump]
  simp only [canonConfig, canon_appDump_factor]

theorem eqCanon_svcDump_factor (s : ServiceConfig) :
    canonYaml (eqCanonService s).dump = canonYaml s.dump := by
  rw [canonYaml_svcDump, canonYaml_svcDump]
  simp only [eqCanonService, sortKeys_idem,
    sortKeys_map_val (fun x : Py => canonPy x),
    List.map_map, Function.comp_def, canonJson_canonPy,
    ← sortKeys_map_val (fun x : Py => canonYaml (pyToJson x))]

theorem eqCanon_appDump_factor (a : ApplicationConfig) :
    canonYaml (eqCanonApp a).dump = canonYaml a.dump := by
  rw [canonYaml_appDump, canonYaml_appDump]
  simp only [eqCanonApp, sortKeys_idem,
    sortKeys_map_val (fun x : ServiceConfig => eqCanonService x),
    List.map_map, Function.comp_def, eqCanon_svcDump_factor,
    sortKeys_map_val (fun x : ServiceConfig => canonYaml x.dump)]

theorem eqCanon_dump_factor (c : DockLiftConfig) :
    canonYaml (eqCanonConfig c).dump = canonYaml c.dump := by
  rw [canonYaml_configDump, canonYaml_configDump]
  simp only [eqCanonConfig, eqCanon_appDump_factor]

/-! ## The claims -/

/-- C1 (save-load round trip), corrected. The claim as stated is false:
`extra` is `dict[str, Any]`, and `model_dump(mode="json")` coerces
non-JSON values (a tuple becomes a list, and likewise dates, sets and
bytes are rewritten), so the reloaded configuration is not Python-`==`
to the original for such extras — see the counterexample with a tuple.
Amended statement proved here: for a valid `DockLiftConfig` whose stored
`ssh_key_path` is a fixed point of the validator over the pre-save
filesystem, `to_yaml` followed by `from_yaml` on the same path succeeds
and returns the canonical (recursively key-sorted, extra-values
JSON-coerced) form of the original; when every `extra` value is already
JSON-representable (no tuples, dates, sets, bytes, …), that result is
Python-`==` to the original, and the `ssh_key_path` normalization is the
identity as the claim states. -/
theorem C1_save_load_roundtrip (env : Env) (fs fs' : FS) (c : DockLiftConfig) (path : String)
    (hssh : validate_ssh_key_path env fs c.vps.ssh_key_path = .ok c.vps.ssh_key_path)
    (hok : DockLiftConfig.to_yaml c path fs = .ok fs')
    (hjs : configJsonSafe c = true) :
    DockLiftConfig.from_yaml env fs' path = .ok (canonConfig c)
    ∧ pyEqConfig (canonConfig c) c = true := by
  constructor
  · have hssh' : validate_ssh_key_path env fs' c.vps.ssh_key_path
        = .ok c.vps.ssh_key_path := by
      unfold validate_ssh_key_path at hssh ⊢
      cases hx : expanduserParts env (pathParts c.vps.ssh_key_path) with
      | error m => rw [hx] at hssh; simp at hssh
      | ok ap =>
        simp only [hx] at hssh ⊢
        by_cases he : fs.exists (renderPath ap) = true
        · have he' := to_yaml_exists_mono c path fs fs' hok _ he
          rw [if_pos he] at hssh
          rw [if_pos he']
          exact hssh
        · rw [if_neg he] at hssh
          exact absurd hssh (by simp)
    have hlk := to_yaml_lookup c path fs fs' hok
    have hex : fs'.exists (pathNorm path) = true := by simp [FS.exists, hlk]
    rw [canonYaml_configDump] at hlk
    simp only [DockLiftConfig.from_yaml, hex, if_true, hlk]
    simp [toTopDoc, YMap.toList, YKey.isStr, strPairs, YMap.ofList,
      config_decode env fs' c hssh', Val.toPy]
  · exact pyEqConfig_canon c hjs

/-- C1 counterexample. A configuration whose dependency carries a tuple in
`extra` satisfies every proviso of the original claim (its `ssh_key_path`
is a validator fixed point over the pre-save filesystem), yet the
save→load round trip returns a configuration holding a list where the
tuple was — `model_dump(mode="json")` coerces tuples to lists, and in
Python `(1, 2) == [1, 2]` is `False` — so the reloaded value is neither
`==` nor identical to the original. -/
theorem C1_counterexample :
    validate_ssh_key_path env0 fs0 cfgT.vps.ssh_key_path = .ok cfgT.vps.ssh_key_path
    ∧ DockLiftConfig.to_yaml cfgT "out/t.yml" fs0 = .ok fsTafter
    ∧ DockLiftConfig.from_yaml env0 fsTafter "out/t.yml" = .ok cfgT'
    ∧ pyEqConfig cfgT' cfgT = false
    ∧ cfgT' ≠ cfgT := by
  refine ⟨by decide, by decide, by decide, by decide, by decide⟩

/-- Witness for C1 at a concrete configuration (with an unsorted
`environment` dict, so the canonicalization is visible). -/
theorem C1_witness :
    DockLiftConfig.from_yaml env0 fs1after "out/config.yml" = .ok (canonConfig cfg0)
    ∧ pyEqConfig (canonConfig cfg0) cfg0 = true :=
  C1_save_load_roundtrip env0 fs0 fs1after cfg0 "out/config.yml" (by decide) (by decide)
    (by decide)

/-- C2 (ssh key validation). Construction of a `VPSConfig` whose `ssh_key_path` expands
successfully: if the expanded path does not exist the construction fails
with a `ValidationError` whose message quotes the original path literal
(`"SSH key not found at: {v}"`); if it exists the construction succeeds and
stores the expanded path string `str(Path(v).expanduser())`, not the
original literal. -/
theorem C2_ssh_key_validation (env : Env) (fs : FS) (h u v : String)
    (ap : String × List String)
    (hexp : expanduserParts env (pathParts v) = .ok ap) :
    VPSConfig.construct env fs h u v
      = if fs.exists (renderPath ap) = true
        then .ok ⟨h, u, renderPath ap, 22, none⟩
        else .error (.validationError
          ["ssh_key_path: Value error, SSH key not found at: " ++ v]) :=
  vps_construct_eq env fs h u v ap hexp

/-- Witness for C2: the key file `~/.ssh/id_rsa` exists, so construction
succeeds and stores the expanded `/root/.ssh/id_rsa`. -/
theorem C2_witness :
    VPSConfig.construct env0 fs0 "1.2.3.4" "deploy" "~/.ssh/id_rsa"
      = .ok ⟨"1.2.3.4", "deploy", "/root/.ssh/id_rsa", 22, none⟩ :=
  (C2_ssh_key_validation env0 fs0 "1.2.3.4" "deploy" "~/.ssh/id_rsa"
    ("/", ["root", ".ssh", "id_rsa"]) (by decide)).trans (by decide)

/-- C3 (missing file). Loading from a path that does not exist fails with
`FileNotFoundError("Configuration file not found: {path}")` — raised by the
explicit `Path(path).exists()` check before the file is opened or parsed,
regardless of anything else in the filesystem — and this error is distinct
from `ValidationError` and from the YAML parse error. -/
theorem C3_missing_file (env : Env) (fs : FS) (path : String)
    (h : fs.exists (pathNorm path) = false) :
    DockLiftConfig.from_yaml env fs path
      = .error (.fileNotFoundError ("Configuration file not found: " ++ path))
    ∧ (∀ l, PyErr.fileNotFoundError ("Configuration file not found: " ++ path)
        ≠ .validationError l)
    ∧ PyErr.fileNotFoundError ("Configuration file not found: " ++ path) ≠ .yamlError := by
  refine ⟨?_, by simp, by simp⟩
  simp [DockLiftConfig.from_yaml, h]

/-- Witness for C3 at a concrete missing path. -/
theorem C3_witness :
    DockLiftConfig.from_yaml env0 fs0 "missing.yml"
      = .error (.fileNotFoundError "Configuration file not found: missing.yml") :=
  (C3_missing_file env0 fs0 "missing.yml" (by decide)).1

/-- C5 (defaults). Defaults for omitted optional fields: constructing a
`VPSConfig` from only `host`, `user` and `ssh_key_path` yields
`port = 22` and `email = None`; constructing an `ApplicationConfig` from
only `name` and `domain` yields `dockerfile = "./Dockerfile"`,
`context = "."`, `port = None` (no auto-assignment), and empty
`environment` and `dependencies` mappings. -/
theorem C5_defaults (env : Env) (fs : FS) (h u v n d : String)
    (ap : String × List String)
    (hexp : expanduserParts env (pathParts v) = .ok ap)
    (hex : fs.exists (renderPath ap) = true) :
    VPSConfig.construct env fs h u v = .ok ⟨h, u, renderPath ap, 22, none⟩
    ∧ ApplicationConfig.construct n d
      = .ok ⟨n, d, "./Dockerfile", ".", none, [], []⟩ :=
  ⟨by rw [vps_construct_eq env fs h u v ap hexp, if_pos hex],
   app_construct_defaults n d⟩

/-- Witness for C5: the spec's example scenario. -/
theorem C5_witness :
    VPSConfig.construct env0 fs0 "1.2.3.4" "deploy" "~/.ssh/id_rsa"
      = .ok ⟨"1.2.3.4", "deploy", "/root/.ssh/id_rsa", 22, none⟩
    ∧ ApplicationConfig.construct "blog" "blog.example.com"
      = .ok ⟨"blog", "blog.example.com", "./Dockerfile", ".", none, [], []⟩ :=
  C5_defaults env0 fs0 "1.2.3.4" "deploy" "~/.ssh/id_rsa" "blog" "blog.example.com"
    ("/", ["root", ".ssh", "id_rsa"]) (by decide) (by decide)

/-- C4 counterexample. Three existing, parseable documents on which
`from_yaml` fails with neither a `SerializationError` nor a
`ValidationError`, refuting the claim: an empty document (`safe_load`
returns `None`, and `cls(**None)` is a `TypeError`); a mapping with a
non-string key (`cls(**data)` raises
`TypeError("keywords must be strings")`); and a mapping whose
`ssh_key_path` holds an unresolvable `~user` shorthand
(`Path.expanduser` raises `RuntimeError`, which pydantic does not wrap).
Each forces one piece of the amended classification. -/
theorem C4_counterexample :
    (DockLiftConfig.from_yaml env0 ⟨[("cfg.yml", ⟨some .null, false⟩)], []⟩ "cfg.yml"
        = .error (.typeError "argument after ** must be a mapping")
      ∧ isParseOrValidationErr (.typeError "argument after ** must be a mapping") = false)
    ∧ (DockLiftConfig.from_yaml env0
          ⟨[("k.yml", ⟨some (.mapping [(.int 1, .str "x")]), false⟩)], []⟩ "k.yml"
        = .error (.typeError "keywords must be strings")
      ∧ isParseOrValidationErr (.typeError "keywords must be strings") = false)
    ∧ (DockLiftConfig.from_yaml env0
          ⟨[("u.yml", ⟨some (.mapping [(.str "vps", .map (.cons "host" (.str "1.2.3.4")
              (.cons "user" (.str "deploy")
                (.cons "ssh_key_path" (.str "~nouser/k") .nil))))]), false⟩)], []⟩ "u.yml"
        = .error (.runtimeError "Could not determine home directory")
      ∧ isParseOrValidationErr (.runtimeError "Could not determine home directory") = false) := by
  decide

/-- C4 amended. For an existing file, `from_yaml` never returns a
partial object, and the error class depends on the document's shape:
unparseable text raises the YAML parse error (`SerializationError`); a
parseable document whose top level is not a mapping (empty document,
scalar, sequence) raises a `TypeError` from `cls(**data)`; a top-level
mapping with a non-string key raises
`TypeError("keywords must be strings")`; and a string-keyed mapping that
fails validation raises a `ValidationError` — except that an unresolvable
home-directory shorthand in `ssh_key_path` surfaces as the validator's
`RuntimeError`.  All three deviations from the original claim are
exhibited concretely by `C4_counterexample`. -/
theorem C4_error_classes (env : Env) (fs : FS) (path : String) (d : Document)
    (hf : fs.files.lookup (pathNorm path) = some d) :
    (d.content = none → DockLiftConfig.from_yaml env fs path = .error .yamlError)
    ∧ (∀ t, d.content = some t → (∀ m, t ≠ .mapping m) →
        DockLiftConfig.from_yaml env fs path
          = .error (.typeError "argument after ** must be a mapping"))
    ∧ (∀ m, d.content = some (.mapping m) → m.all (fun p => p.1.isStr) = false →
        DockLiftConfig.from_yaml env fs path
          = .error (.typeError "keywords must be strings"))
    ∧ (∀ m, d.content = some (.mapping m) → m.all (fun p => p.1.isStr) = true →
        ∀ e, DockLiftConfig.from_yaml env fs path = .error e →
          (∃ l, e = .validationError l) ∨ (∃ msg, e = .runtimeError msg)) := by
  have hex : fs.exists (pathNorm path) = true := by simp [FS.exists, hf]
  refine ⟨?_, ?_, ?_, ?_⟩
  · intro hc
    simp [DockLiftConfig.from_yaml, hex, hf, hc]
  · intro t hc hnm
    cases t <;> simp [DockLiftConfig.from_yaml, hex, hf, hc]
    case mapping m => exact absurd rfl (hnm m)
  · intro m hc hk
    simp [DockLiftConfig.from_yaml, hex, hf, hc, hk]
  · intro m hc hk e he
    simp only [DockLiftConfig.from_yaml, hex, if_true, hf, hc, hk] at he
    exact toPy_classify _ (config_validateFields_plain env fs _) e he

/-- Witness for C4 (amended): a scalar document raises the non-mapping
`TypeError`; a string-keyed mapping missing both required fields raises a
`ValidationError`. -/
theorem C4_witness :
    DockLiftConfig.from_yaml env0 ⟨[("s.yml", ⟨some (.int 3), false⟩)], []⟩ "s.yml"
      = .error (.typeError "argument after ** must be a mapping")
    ∧ ((∃ l, PyErr.validationError ["vps: Field required", "application: Field required"]
          = .validationError l)
        ∨ (∃ msg, PyErr.validationError ["vps: Field required", "application: Field required"]
          = .runtimeError msg)) :=
  ⟨(C4_error_classes env0 ⟨[("s.yml", ⟨some (.int 3), false⟩)], []⟩ "s.yml"
      ⟨some (.int 3), false⟩ (by decide)).2.1 (.int 3) rfl (fun m => by simp),
   (C4_error_classes env0 ⟨[("m.yml", ⟨some (.mapping []), false⟩)], []⟩ "m.yml"
      ⟨some (.mapping []), false⟩ (by decide)).2.2.2 [] rfl (by decide)
      (.validationError ["vps: Field required", "application: Field required"]) (by decide)⟩

/-- C6 counterexample. A successfully constructed `VPSConfig` can
store a relative `ssh_key_path`: a relative input that exists (relative
paths are checked against the current directory) is stored unchanged, and
the code never calls `Path.resolve()`/`absolute()`, so the stored path is
not absolute — contradicting the claimed invariant. -/
theorem C6_counterexample :
    VPSConfig.construct ⟨"/root", []⟩ ⟨[("key.pem", ⟨some .null, false⟩)], []⟩ "h" "u" "key.pem"
      = .ok ⟨"h", "u", "key.pem", 22, none⟩
    ∧ isAbsStr "key.pem" = false := by
  decide

theorem vApp_ok_inv {α β : Type} {f : Val (α → β)} {x : Val α} {b : β}
    (h : vApp f x = .ok b) : ∃ g a, f = .ok g ∧ x = .ok a ∧ b = g a := by
  cases f with
  | ok g =>
    cases x with
    | ok a =>
      refine ⟨g, a, rfl, rfl, ?_⟩
      simpa [vApp] using h.symm
    | error v => simp [vApp] at h
  | error v =>
    cases v with
    | msgs l =>
      cases x with
      | ok a => simp [vApp] at h
      | error w => cases w <;> simp [vApp] at h
    | exn e => simp [vApp] at h

/-- C6 amended. The invariant that does hold, over every construction
path of a `VPSConfig` — any keyword-argument set, including the nested
construction `from_yaml` performs, all of which go through
`VPSConfig.validateFields`: the stored `ssh_key_path` is
`str(Path(input).expanduser())` — the home-expanded, pathlib-normalized
form of the supplied `ssh_key_path` string — and that path existed on the
filesystem at validation time.  It is absolute only when the input (or
the home directory it expands to) was absolute. -/
theorem C6_stored_key_invariant (env : Env) (fs : FS) (kw : YMap) (c : VPSConfig)
    (hok : VPSConfig.validateFields env fs kw = .ok c) :
    ∃ v ap, kw.get "ssh_key_path" = some (.str v)
      ∧ expanduserParts env (pathParts v) = .ok ap
      ∧ c.ssh_key_path = renderPath ap
      ∧ fs.exists c.ssh_key_path = true := by
  unfold VPSConfig.validateFields at hok
  obtain ⟨g4, em, h4, hem, hc⟩ := vApp_ok_inv hok
  obtain ⟨g3, pt, h3, hpt, hg4⟩ := vApp_ok_inv h4
  obtain ⟨g2, s, h2, hs, hg3⟩ := vApp_ok_inv h3
  obtain ⟨g1, u, h1, hu, hg2⟩ := vApp_ok_inv h2
  obtain ⟨g0, hh, h0, hhost, hg1⟩ := vApp_ok_inv h1
  have hg0 : g0 = VPSConfig.mk := by simpa using h0.symm
  subst hc
  subst hg4
  subst hg3
  subst hg2
  subst hg1
  subst hg0
  cases hr : vReqStr "ssh_key_path" (kw.get "ssh_key_path") with
  | error er => rw [hr] at hs; simp at hs
  | ok v =>
    simp only [hr] at hs
    have hget : kw.get "ssh_key_path" = some (.str v) := by
      cases ho : kw.get "ssh_key_path" with
      | none => rw [ho] at hr; simp [vReqStr] at hr
      | some y =>
        cases y <;> rw [ho] at hr <;> simp [vReqStr] at hr
        case str s0 => rw [hr]
    unfold validate_ssh_key_path at hs
    cases hx : expanduserParts env (pathParts v) with
    | error m => simp only [hx] at hs; simp at hs
    | ok ap =>
      simp only [hx] at hs
      by_cases he : fs.exists (renderPath ap) = true
      · rw [if_pos he] at hs
        have hsr : renderPath ap = s := by simpa using hs
        exact ⟨v, ap, hget, hx, by simp [hsr], by simpa [hsr] using he⟩
      · rw [if_neg he] at hs
        exact absurd hs (by simp)

/-- Witness for C6 (amended), at a construction supplying all five
keyword arguments, including `port` and `email`. -/
theorem C6_witness :
    ∃ v ap,
      (YMap.cons "host" (.str "1.2.3.4") (.cons "user" (.str "deploy")
        (.cons "ssh_key_path" (.str "~/.ssh/id_rsa") (.cons "port" (.int 2222)
          (.cons "email" (.str "ops@example.com") .nil))))).get "ssh_key_path"
        = some (.str v)
      ∧ expanduserParts env0 (pathParts v) = .ok ap
      ∧ (VPSConfig.mk "1.2.3.4" "deploy" "/root/.ssh/id_rsa" 2222
          (some "ops@example.com")).ssh_key_path = renderPath ap
      ∧ fs0.exists (VPSConfig.mk "1.2.3.4" "deploy" "/root/.ssh/id_rsa" 2222
          (some "ops@example.com")).ssh_key_path = true :=
  C6_stored_key_invariant env0 fs0
    (.cons "host" (.str "1.2.3.4") (.cons "user" (.str "deploy")
      (.cons "ssh_key_path" (.str "~/.ssh/id_rsa") (.cons "port" (.int 2222)
        (.cons "email" (.str "ops@example.com") .nil)))))
    ⟨"1.2.3.4", "deploy", "/root/.ssh/id_rsa", 2222, some "ops@example.com"⟩ (by decide)

/-- C7 (service overrides). Construction of `ServiceConfig`: with no keyword arguments it
succeeds with all defaults (`image = None`, empty `environment`/`extra`
mappings, empty `volumes`/`ports`/`depends_on` sequences); it succeeds
whenever every present field has an acceptable shape (unknown keys are
ignored); and a failing construction implies some present field has the
wrong shape. -/
theorem C7_service_defaults_and_shapes :
    ServiceConfig.construct .nil = .ok ⟨none, [], [], [], [], []⟩
    ∧ (∀ kw : YMap, (∀ p ∈ kw.toList, svcFieldOk p.1 p.2 = true) →
        ∃ s, ServiceConfig.construct kw = .ok s)
    ∧ (∀ kw : YMap, ∀ e : PyErr, ServiceConfig.construct kw = .error e →
        ∃ p ∈ kw.toList, svcFieldOk p.1 p.2 = false) :=
  ⟨rfl, svc_construct_ok, svc_construct_err⟩

/-- Witness for C7: the spec's `db` dependency block succeeds; an
`environment` given as a non-mapping is the only ill-shaped field of a
failing construction. -/
theorem C7_witness :
    (∃ s, ServiceConfig.construct
        (.cons "image" (.str "postgres:15")
          (.cons "environment" (.map (.cons "POSTGRES_PASSWORD" (.str "x") .nil)) .nil))
      = .ok s)
    ∧ ∃ p ∈ (YMap.cons "environment" (.str "oops") .nil).toList,
        svcFieldOk p.1 p.2 = false :=
  ⟨C7_service_defaults_and_shapes.2.1 _ (by decide),
   C7_service_defaults_and_shapes.2.2 _
     (.validationError ["environment: Input should be a valid dictionary"]) (by decide)⟩

/-- C8 (save effects). When `to_yaml` succeeds, every directory in the chain of
the target's parent has been created (`parent.mkdir(parents=True,
exist_ok=True)`), the file at the normalized target path holds exactly the
dumped document — recursively key-sorted (`yaml.dump` defaults to
`sort_keys=True`) and in block style (`default_flow_style=False`) —
overwriting whatever file was there, with no other file touched (no
backup, no confirmation). -/
theorem C8_to_yaml_effects (c : DockLiftConfig) (path : String) (fs fs' : FS)
    (hok : DockLiftConfig.to_yaml c path fs = .ok fs') :
    (∀ d ∈ prefixesFrom (pathParts path).1 [] (pathParts path).2.dropLast,
        fs'.dirs.contains d = true)
    ∧ fs'.files.lookup (pathNorm path) = some ⟨some (toTopDoc (canonYaml c.dump)), false⟩
    ∧ sortedDoc (canonYaml c.dump) = true
    ∧ (∀ q, q ≠ pathNorm path → fs'.files.lookup q = fs.files.lookup q) := by
  refine ⟨?_, to_yaml_lookup c path fs fs' hok, canonYaml_sortedDoc _,
    to_yaml_lookup_other c path fs fs' hok⟩
  intro d hd
  rw [to_yaml_spec c path fs fs' hok]
  simp only [List.contains, List.elem_iff, List.mem_append, List.mem_filter]
  by_cases hmem : d ∈ fs.dirs
  · exact Or.inl hmem
  · refine Or.inr ⟨hd, ?_⟩
    simp [List.contains, List.elem_iff, hmem]

/-- Witness for C8: writing under `out/dir/` creates `out` and `out/dir`,
writes the sorted block-style document, and leaves the key file alone. -/
theorem C8_witness :
    fs8after.files.lookup "out/dir/cfg.yml" = some ⟨some (toTopDoc (canonYaml cfg0.dump)), false⟩
    ∧ sortedDoc (canonYaml cfg0.dump) = true
    ∧ fs8after.dirs.contains "out/dir" = true :=
  ⟨(C8_to_yaml_effects cfg0 "out/dir/cfg.yml" fs0 fs8after (by decide)).2.1,
   (C8_to_yaml_effects cfg0 "out/dir/cfg.yml" fs0 fs8after (by decide)).2.2.1,
   (C8_to_yaml_effects cfg0 "out/dir/cfg.yml" fs0 fs8after (by decide)).1 "out/dir" (by decide)⟩

/-- C9 (determinism). Serialization is deterministic up to Python `==`: two
configurations that are `==` as Python values (in particular, dict fields
in different insertion orders) serialize to byte-identical documents,
because `model_dump` depends only on field values and `yaml.dump` sorts
all mapping keys. -/
theorem C9_dump_deterministic (c1 c2 : DockLiftConfig) (p1 p2 : String)
    (fs1 fs2 fs1' fs2' : FS)
    (heq : pyEqConfig c1 c2 = true)
    (h1 : DockLiftConfig.to_yaml c1 p1 fs1 = .ok fs1')
    (h2 : DockLiftConfig.to_yaml c2 p2 fs2 = .ok fs2') :
    fs1'.files.lookup (pathNorm p1) = fs2'.files.lookup (pathNorm p2) := by
  rw [to_yaml_lookup _ _ _ _ h1, to_yaml_lookup _ _ _ _ h2]
  have hc : eqCanonConfig c1 = eqCanonConfig c2 := by simpa [pyEqConfig] using heq
  rw [← eqCanon_dump_factor c1, ← eqCanon_dump_factor c2, hc]

/-- Witness for C9: two configs whose `environment` dicts differ only in
insertion order produce identical documents at different paths. -/
theorem C9_witness :
    fs9a.files.lookup "a.yml" = fs9b.files.lookup "b.yml" :=
  C9_dump_deterministic c9a c9b "a.yml" "b.yml" ⟨[], []⟩ ⟨[], []⟩ fs9a fs9b
    (by decide) (by decide) (by decide)

/-- C10 counterexample. An input that does not begin with `~` and
names an existing path need not be stored unchanged: `Path("a//b")`
normalizes to `a/b`, so the stored value differs from the input literal
even though home-directory expansion was the identity. -/
theorem C10_counterexample :
    ("a//b".data.head? = some '~') = False
    ∧ FS.exists ⟨[("a/b", ⟨some .null, false⟩)], []⟩ (pathNorm "a//b") = true
    ∧ VPSConfig.construct ⟨"/root", []⟩ ⟨[("a/b", ⟨some .null, false⟩)], []⟩ "h" "u" "a//b"
      = .ok ⟨"h", "u", "a/b", 22, none⟩
    ∧ "a/b" ≠ "a//b" := by
  refine ⟨by simp, by decide, by decide, by decide⟩

/-- C10 amended. For an input whose parsed form has no
home-directory shorthand, expansion is indeed the identity, and the stored
value is `str(Path(v))` — the pathlib normalization of the input (which
equals the input exactly when the input is already in normal form, and
keeps relative paths relative: the anchor is untouched). -/
theorem C10_no_tilde_normalization (env : Env) (fs : FS) (h u v : String)
    (hnt : noTilde (pathParts v) = true)
    (hex : fs.exists (pathNorm v) = true) :
    expanduserParts env (pathParts v) = .ok (pathParts v)
    ∧ VPSConfig.construct env fs h u v = .ok ⟨h, u, pathNorm v, 22, none⟩ := by
  have hid := expanduserParts_id env (pathParts v) hnt
  refine ⟨hid, ?_⟩
  have hex' : fs.exists (renderPath (pathParts v)) = true := hex
  rw [vps_construct_eq env fs h u v (pathParts v) hid, if_pos hex']
  rfl

/-- Witness for C10 (amended): an already-normalized relative path is
stored unchanged. -/
theorem C10_witness :
    expanduserParts env0 (pathParts "conf/key.pem") = .ok (pathParts "conf/key.pem")
    ∧ VPSConfig.construct env0 ⟨[("conf/key.pem", ⟨some .null, false⟩)], []⟩ "h" "u"
        "conf/key.pem" = .ok ⟨"h", "u", "conf/key.pem", 22, none⟩ :=
  C10_no_tilde_normalization env0 ⟨[("conf/key.pem", ⟨some .null, false⟩)], []⟩ "h" "u"
    "conf/key.pem" (by decide) (by decide)

end Docklift

